import Mathlib

/-!
Shallow embedding of the hadron build-time compiler (the `part_001` build
script together with its component library).  JavaScript objects become
heap-indexed structures, mutation becomes explicit state passing on `St`,
and every `error(...)`/`process.exit(1)` call site becomes an `Except Err`
error.  Action emission callbacks (closures in the source) are represented
by a small statement DSL (`EStmt`) that records exactly the `es.emit`,
`es.string`, `es.emit_triggered` and capture-substitution operations the
source closures perform.
-/

namespace Hadron

/-! ### Association-list primitives (model of JS `Map` and plain objects) -/

/-- Lookup in an insertion-ordered association list (JS `Map.get`). -/
def lookupA (k : String) : List (String × α) → Option α
  | [] => none
  | (k', v) :: rest => if k' = k then some v else lookupA k rest

/-- Update in an insertion-ordered association list (JS `Map.set`):
replaces the value in place when the key exists, else appends. -/
def setKV (k : String) (v : α) : List (String × α) → List (String × α)
  | [] => [(k, v)]
  | (k', v') :: rest => if k' = k then (k, v) :: rest else (k', v') :: setKV k v rest

/-! ### Decimal rendering (model of JS number-to-string conversion) -/

/-- One decimal digit as a character. -/
def digitChar : Nat → Char
  | 0 => '0'
  | 1 => '1'
  | 2 => '2'
  | 3 => '3'
  | 4 => '4'
  | 5 => '5'
  | 6 => '6'
  | 7 => '7'
  | 8 => '8'
  | 9 => '9'
  | _ => '?'

/-- Division-by-ten digit recursion, bounded by structural fuel so that
it reduces definitionally (`decDigits` always supplies enough fuel). -/
def decAux (fuel n : Nat) : List Nat :=
  match fuel with
  | 0 => [n]
  | f + 1 => if n < 10 then [n] else decAux f (n / 10) ++ [n % 10]

/-- Decimal digits of a natural number, most significant first. -/
def decDigits (n : Nat) : List Nat :=
  decAux n n

/-- Decimal string of a natural number (JS `String(n)` for a small int). -/
def natToDec (n : Nat) : String :=
  ⟨(decDigits n).map digitChar⟩

/-- The value a digit list denotes (specification device for proving
`natToDec` injective). -/
def decVal (l : List Nat) : Nat :=
  l.foldl (fun a d => 10 * a + d) 0

/-- Decimal string of an integer. -/
def intToDec (n : Int) : String :=
  if n < 0 then ("-") ++ natToDec (-n).toNat else natToDec n.toNat

/-! ### JS values and `JSON.stringify` -/

/-- The literal values the graphs carry (strings, numbers, booleans). -/
inductive JVal where
  | str (s : String)
  | num (n : Int)
  | bool (b : Bool)
deriving DecidableEq, Repr

/-- One hexadecimal digit. -/
def hexDigitChar (d : Nat) : Char :=
  if d < 10 then digitChar d
  else if d = 10 then 'a' else if d = 11 then 'b' else if d = 12 then 'c'
  else if d = 13 then 'd' else if d = 14 then 'e' else 'f'

/-- `JSON.stringify` escaping of one character inside a string literal. -/
def jsonEscapeChar (c : Char) : List Char :=
  if c = '"' then ['\\', '"']
  else if c = '\\' then ['\\', '\\']
  else if c = '\n' then ['\\', 'n']
  else if c = '\r' then ['\\', 'r']
  else if c = '\t' then ['\\', 't']
  else if c = '\x08' then ['\\', 'b']
  else if c = '\x0c' then ['\\', 'f']
  else if c.toNat < 32 then
    ['\\', 'u', '0', '0', hexDigitChar (c.toNat / 16), hexDigitChar (c.toNat % 16)]
  else [c]

/-- Escape every character of a string body. -/
def escapeList : List Char → List Char
  | [] => []
  | c :: rest => jsonEscapeChar c ++ escapeList rest

/-- `JSON.stringify` on the values the compiler quotes (used by
`EmitContext.string` for literal endpoints). -/
def jsonStringify : JVal → String
  | .str s => ⟨('"' :: escapeList s.data) ++ ['"']⟩
  | .num n => intToDec n
  | .bool b => if b then ("true") else ("false")

/-- JS string conversion as performed by template-literal interpolation. -/
def jsToString : JVal → String
  | .str s => s
  | .num n => intToDec n
  | .bool b => if b then ("true") else ("false")

/-- The literal type tag the `Binding` constructor assigns to a default
value: `typeof(defaultValue)==='string' ? 'text' : typeof(defaultValue)`. -/
def defaultLitType : JVal → String
  | .str _ => ("text")
  | .num _ => ("number")
  | .bool _ => ("boolean")

/-! ### The data model -/

/-- `Reference`: an unresolved dotted path (`name.split('.')`). -/
structure Reference where
  name : String
  path : List String
deriving DecidableEq, Repr

/-- JS `String.prototype.split('.')` over a character list (`cur` holds
the pending segment, reversed). -/
def splitDot : List Char → List Char → List String
  | [], cur => [⟨cur.reverse⟩]
  | c :: rest, cur =>
    if c = '.' then ⟨cur.reverse⟩ :: splitDot rest [] else splitDot rest (c :: cur)

/-- The `ref(str)` helper of the driver: builds a `Reference`
(`name.split('.')`). -/
def mkRef (s : String) : Reference :=
  ⟨s, splitDot s.data []⟩

/-- What an argument map may hold: a `Reference` or a `Literal`
(the driver only ever supplies `ref(...)` or `text(...)` values). -/
inductive Source where
  | ref (r : Reference)
  | literal (type : String) (value : JVal)
deriving DecidableEq, Repr

/-- A resolution result: the JS objects `resolve()` can land on.  A
`Literal` or a `ValueSlot` (by heap id) is terminal; an `InstanceContext`
(by heap id) results from a one-segment path. -/
inductive Res where
  | literal (type : String) (value : JVal)
  | slot (sid : Nat)
  | inst (iid : Nat)
deriving DecidableEq, Repr

/-- Every `error(...)` call site of the source, plus `nullCrash` for the
uncaught JS `TypeError` raised by a property access on `null`/`undefined`,
plus `outOfFuel`, an artifact of the bounded evaluator (never produced on
any terminating run given enough fuel). -/
inductive Err where
  | missingDefn (kind : String)
  | duplicateId (id : String)
  | missingField (field : String) (instPath : String)
  | typeMismatch (field declared found instPath : String)
  | noFields (instPath : String)
  | noSuchField (field : String) (instPath : String)
  | notResolvable (field : String) (instPath : String)
  | unknownImport (name : String) (instPath : String)
  | badEndpoint (isTag : String)
  | notSlot
  | badMode (isTag : String)
  | notBool (path : String)
  | nullCrash
  | outOfFuel
deriving DecidableEq, Repr

/-- A piece of one emitted line: literal text, the rendering
`es.string(binding)`, or a `binding.resolve().asBool()` interpolation. -/
inductive Frag where
  | lit (s : String)
  | str (b : Nat)
  | boolOf (b : Nat)
deriving DecidableEq, Repr

/-- One operation performed by an action emission callback.
`runWithCaptures` is the synthesized join actor's inner call
`act.emit(new EmitContext(tpl, act.inst, '  ', captureMap))`. -/
inductive EStmt where
  | emit (frags : List Frag)
  | emitTriggered (target : Res) (indent : String)
  | runWithCaptures (aid : Nat) (capMap : List (String × String))
deriving DecidableEq, Repr

/-- A dependency in an `Action`'s wait list: normally a `Binding`; the
synthesized decrement helpers are constructed with a raw `ValueSlot`. -/
inductive WaitDep where
  | bnd (b : Nat)
  | slotDep (s : Nat)
deriving DecidableEq, Repr

/-- `Action`: wait list, emission program, owning instance.
(The source also stores `act.needs` during scheduling; it is written once
and never read afterwards, so it is not modelled.) -/
structure Act where
  wait : List WaitDep
  body : List EStmt
  instId : Nat
deriving DecidableEq, Repr

/-- `ValueSlot`: declared output endpoint.  `mode` is always `'once'` in
the source constructor and is therefore left implicit. -/
structure Slot where
  type : String
  sym : String
  field : String
  instId : Nat
  queued : List Nat
deriving DecidableEq, Repr

/-- `Binding`: one input field at a use-site, with its memoized
resolution (`resolved`, initially `null`).  `toRef` is the source field
`this.to` (`to` is reserved in Lean). -/
structure Bnd where
  toRef : Source
  type : String
  field : String
  instId : Nat
  resolved : Option Res
deriving DecidableEq, Repr

/-- `InstanceContext`: argument map, public field map, `where` string. -/
structure Inst where
  fields : List (String × Nat)
  args : List (String × Source)
  whereStr : String
deriving DecidableEq, Repr

/-- `TemplateContext` plus the object heaps: all mutable compiler state.
`heap` holds every `Action` object ever created; `actsReg` is `tpl.acts`
(the registered actions, in registration order); `roots` is `tpl.roots`. -/
structure St where
  name : String
  imports : List (String × String)
  uidMap : List (String × Nat)
  bound : List (String × Nat)
  lines : List String
  insts : List Inst
  slots : List Slot
  bnds : List Bnd
  heap : List Act
  actsReg : List Nat
  roots : List Nat
deriving DecidableEq, Repr

/-! ### TemplateContext / InstanceContext operations -/

/-- The `libs` table: known import libraries and their `require` paths. -/
def libs : String → Option String
  | "fs" => some ("fs")
  | _ => none

/-- `tpl.uid(name)`: bump the per-base counter, return `name+'_'+n`. -/
def uid (st : St) (name : String) : String × St :=
  let n := (lookupA name st.uidMap).getD 0 + 1
  (name ++ ("_") ++ natToDec n, { st with uidMap := setKV name n st.uidMap })

/-- The current per-base counter value (0 if the base was never used). -/
def uidCount (st : St) (name : String) : Nat :=
  (lookupA name st.uidMap).getD 0

/-- The shape of every symbol `uid` returns: `base ++ '_' ++ counter`. -/
def uidSym (base : String) (n : Nat) : String :=
  base ++ ("_") ++ natToDec n

/-- A sequence of `uid` calls, collecting the returned symbols. -/
def uidSeq (st : St) : List String → List String × St
  | [] => ([], st)
  | name :: rest =>
    let (s, st') := uid st name
    let (ss, st'') := uidSeq st' rest
    (s :: ss, st'')

/-- `cs.path()`: `where + ' in ' + tpl.name`. -/
def instPathStr (st : St) (iid : Nat) : String :=
  match st.insts[iid]? with
  | some i => i.whereStr ++ (" in ") ++ st.name
  | none => ("undefined")

/-- The `.path()` rendering of a resolution result (used in diagnostics). -/
def resPathStr (st : St) : Res → String
  | .literal t _ => ("literal-") ++ t
  | .slot sid =>
    match st.slots[sid]? with
    | some sl => ("value-slot ") ++ sl.field ++ (" in ") ++ instPathStr st sl.instId
    | none => ("undefined")
  | .inst iid => instPathStr st iid

/-- `cs.imports(name)`: deduplicated per library, fails on an unknown
library name, else generates a symbol and records it. -/
def instImports (st : St) (iid : Nat) (name : String) : Except Err (String × St) :=
  match lookupA name st.imports with
  | some sym => .ok (sym, st)
  | none =>
    match libs name with
    | none => .error (.unknownImport name (instPathStr st iid))
    | some _ =>
      let (u, st') := uid st name
      .ok (u, { st' with imports := setKV name u st'.imports })

/-- The `Binding` constructor's source selection: the supplied argument,
else a literal built from the default (`'text'` for strings, `typeof`
otherwise), else the missing-field failure. -/
def mkBindingTo (st : St) (iid : Nat) (name : String) (dflt : Option JVal) :
    Except Err Source :=
  match st.insts[iid]? with
  | none => .error .nullCrash
  | some inst =>
    match lookupA name inst.args with
    | some src => .ok src
    | none =>
      match dflt with
      | some v => .ok (.literal (defaultLitType v) v)
      | none => .error (.missingField name (instPathStr st iid))

/-- `tpl.bind_to` / `cs.input`: create and register a `Binding`
(returns its heap id). -/
def bind_to (st : St) (name type : String) (iid : Nat) (dflt : Option JVal) :
    Except Err (Nat × St) :=
  match mkBindingTo st iid name dflt with
  | .error e => .error e
  | .ok src =>
    .ok (st.bnds.length,
      { st with bnds := st.bnds ++
          [({ toRef := src, type := type, field := name, instId := iid, resolved := none } : Bnd)] })

/-- `cs.output(name, type)`: fresh symbol, new `ValueSlot`, recorded in
the instance's public field map. -/
def output (st : St) (iid : Nat) (name type : String) : Nat × St :=
  let (sym, st1) := uid st name
  let sid := st1.slots.length
  let st2 := { st1 with slots := st1.slots ++
      [({ type := type, sym := sym, field := name, instId := iid, queued := [] } : Slot)] }
  let st3 :=
    match st2.insts[iid]? with
    | some inst =>
      { st2 with insts := st2.insts.set iid { inst with fields := setKV name sid inst.fields } }
    | none => st2
  (sid, st3)

/-- `cs.slot(name, type)`: same as `output` but not part of the public
field map. -/
def slotDecl (st : St) (iid : Nat) (name type : String) : Nat × St :=
  let (sym, st1) := uid st name
  (st1.slots.length,
   { st1 with slots := st1.slots ++
      [({ type := type, sym := sym, field := name, instId := iid, queued := [] } : Slot)] })

/-- `cs.action(deps, emit)`: create an `Action` and append it to
`tpl.acts` (registration order). -/
def action (st : St) (iid : Nat) (wait : List WaitDep) (body : List EStmt) : St :=
  { st with heap := st.heap ++ [({ wait := wait, body := body, instId := iid } : Act)],
            actsReg := st.actsReg ++ [st.heap.length] }

/-! ### Resolution -/

/-- The field-indirection loop of `resolve_path` (segments after the
first).  Each hop calls the field value's own `resolve()`; `ValueSlot`s
resolve to themselves, so a non-instance intermediate object fails with
the does-not-have-fields diagnostic.  (The source's `!got.resolve` guard
is unreachable: `fields` only ever holds `ValueSlot`s.) -/
def pathLoop (st : St) : Res → List String → Except Err (Option Res)
  | cur, [] => .ok (some cur)
  | cur, field :: rest =>
    match cur with
    | .inst iid =>
      match st.insts[iid]? with
      | none => .error .nullCrash
      | some inst =>
        match lookupA field inst.fields with
        | none => .error (.noSuchField field (instPathStr st iid))
        | some sid => pathLoop st (.slot sid) rest
    | _ => .error (.noFields (resPathStr st cur))

/-- `tpl.resolve_path(path)`: returns JS `null` (here `Option.none`) for
an empty path or an unregistered first segment; otherwise runs the
indirection loop.  The result is never cached. -/
def resolve_path (st : St) : List String → Except Err (Option Res)
  | [] => .ok none
  | p0 :: rest =>
    match lookupA p0 st.bound with
    | none => .ok none
    | some iid => pathLoop st (.inst iid) rest

/-- `Reference.resolve(tpl)` / `Literal.resolve()` on a binding's `to`. -/
def srcResolve (st : St) : Source → Except Err (Option Res)
  | .ref r => resolve_path st r.path
  | .literal t v => .ok (some (.literal t v))

/-- The `.type` property of a resolution result (`none` models JS
`undefined`: an `InstanceContext` has no `type` field). -/
def typeTagOf (st : St) : Res → Option String
  | .literal t _ => some t
  | .slot sid => (st.slots[sid]?).map (fun sl => sl.type)
  | .inst _ => none

/-- How a type tag prints inside the type-mismatch message. -/
def showTag : Option String → String
  | some t => t
  | none => ("undefined")

/-- `Binding.resolve()`: memo hit returns the cached endpoint unchanged;
otherwise resolve the source (a `null` result makes the following
`ref.type` access raise a JS `TypeError`, modelled as `nullCrash`),
check the type tag, memoize, return. -/
def bndResolve (st : St) (bid : Nat) : Except Err (Res × St) :=
  match st.bnds[bid]? with
  | none => .error .nullCrash
  | some b =>
    match b.resolved with
    | some r => .ok (r, st)
    | none =>
      match srcResolve st b.toRef with
      | .error e => .error e
      | .ok none => .error .nullCrash
      | .ok (some r) =>
        if typeTagOf st r = some b.type then
          .ok (r, { st with bnds := st.bnds.set bid { b with resolved := some r } })
        else
          .error (.typeMismatch b.field b.type (showTag (typeTagOf st r)) (instPathStr st b.instId))

/-- Resolving one wait-list entry (`dep.resolve()`): a `Binding` goes
through `bndResolve`; a raw `ValueSlot` resolves to itself. -/
def depResolve (st : St) : WaitDep → Except Err (Res × St)
  | .bnd bid => bndResolve st bid
  | .slotDep sid => .ok (.slot sid, st)

/-! ### Scheduling (`resolve_acts`) -/

/-- The dependency-resolution loop of `resolve_acts`: resolve every wait
entry, collect the slots of the non-`const` results in order.
(`Res.inst` cannot occur here: the type check in `Binding.resolve`
rejects instance endpoints and raw slot deps resolve to themselves, so
that branch is unreachable dead code.) -/
def resolveNeeds (st : St) : List WaitDep → Except Err (List Nat × St)
  | [] => .ok ([], st)
  | d :: rest =>
    match depResolve st d with
    | .error e => .error e
    | .ok (r, st') =>
      match r with
      | .literal _ _ => resolveNeeds st' rest
      | .slot sid =>
        match resolveNeeds st' rest with
        | .error e => .error e
        | .ok (ns, st'') => .ok (sid :: ns, st'')
      | .inst _ => .error .nullCrash

/-- `needs.map((ref) => tpl.uid(ref.slot))`: one fresh capture symbol per
dependency, threaded left to right; returns (slot symbol, capture) pairs. -/
def capGen (st : St) : List Nat → Except Err (List (String × String) × St)
  | [] => .ok ([], st)
  | sid :: rest =>
    match st.slots[sid]? with
    | none => .error .nullCrash
    | some sl =>
      let (cap, st') := uid st sl.sym
      match capGen st' rest with
      | .error e => .error e
      | .ok (ps, st'') => .ok ((sl.sym, cap) :: ps, st'')

/-- The shared `captureMap` after the decrement loop has completed: every
`captureMap.set(need.slot, captures[nid])` applied in loop order. -/
def buildCapMap (ps : List (String × String)) : List (String × String) :=
  ps.foldl (fun m p => setKV p.1 p.2 m) []

/-- The decrement-helper loop of the join synthesis: for each dependency,
create the single-dependency decrement `Action` and queue it on the
dependency's slot. -/
def decrLoop (counterVar actorVar : String) (origInst : Nat) (st : St) :
    List (Nat × String × String) → Except Err St
  | [] => .ok st
  | (sid, sym, cap) :: rest =>
    match st.slots[sid]? with
    | none => .error .nullCrash
    | some sl =>
      let did := st.heap.length
      let decrAct : Act :=
        { wait := [.slotDep sid],
          body := [.emit [.lit (cap ++ (" = ") ++ sym ++ (";"))],
                   .emit [.lit (("if (!--") ++ counterVar ++ (") ") ++ actorVar ++ ("();"))]],
          instId := origInst }
      let st' := { st with heap := st.heap ++ [decrAct],
                           slots := st.slots.set sid { sl with queued := sl.queued ++ [did] } }
      decrLoop counterVar actorVar origInst st' rest

/-- The decrement helpers the join loop creates, as a pure list (used to
state what `decrLoop` appends to the action heap): for each dependency
`(sid, sym, cap)`, a single-dependency action that copies the slot value
into its capture and decrements the counter, invoking the actor at zero. -/
def decrActsOf (cv av : String) (oi : Nat) : List (Nat × String × String) → List Act
  | [] => []
  | (sid, sym, cap) :: rest =>
    ({ wait := [.slotDep sid],
       body := [.emit [.lit (cap ++ (" = ") ++ sym ++ (";"))],
                .emit [.lit (("if (!--") ++ cv ++ (") ") ++ av ++ ("();"))]],
       instId := oi } : Act) :: decrActsOf cv av oi rest

/-- The `needs.length >= 2` branch of `resolve_acts` (join synthesis).
The source builds `captureMap` imperatively inside the decrement loop,
after the actor closure has captured the shared mutable `Map`; the actor
only ever runs during emission, after the loop has completed, so the
fully built map is stored in the actor's body here. -/
def joinSynth (st : St) (aid : Nat) (act : Act) (needs : List Nat) : Except Err St :=
  let (counterVar, st1) := uid st ("counter")
  let (actorVar, st2) := uid st1 ("actor")
  match capGen st2 needs with
  | .error e => .error e
  | .ok (ps, st3) =>
    let varLine := ("var ") ++ counterVar ++ (" = ") ++ natToDec needs.length ++ (", ")
        ++ String.intercalate (", ") (ps.map (fun p => p.2)) ++ (";")
    let capMap := buildCapMap ps
    let actorId := st3.heap.length
    let actor : Act :=
      { wait := [],
        body := [.emit [.lit (("function ") ++ actorVar ++ ("() \x7b"))],
                 .runWithCaptures aid capMap,
                 .emit [.lit ("\x7d")]],
        instId := act.instId }
    let st4 := { st3 with lines := st3.lines ++ [varLine],
                          heap := st3.heap ++ [actor],
                          roots := st3.roots ++ [actorId] }
    decrLoop counterVar actorVar act.instId st4 (needs.zip ps)

/-- One iteration of the `resolve_acts` loop: classify the action by its
non-constant dependency count. -/
def resolveAct (aid : Nat) (st : St) : Except Err St :=
  match st.heap[aid]? with
  | none => .error .nullCrash
  | some act =>
    match resolveNeeds st act.wait with
    | .error e => .error e
    | .ok (needs, st') =>
      match needs with
      | [] => .ok { st' with roots := st'.roots ++ [aid] }
      | [sid] =>
        match st'.slots[sid]? with
        | none => .error .nullCrash
        | some sl =>
          .ok { st' with slots := st'.slots.set sid { sl with queued := sl.queued ++ [aid] } }
      | _ => joinSynth st' aid act needs

/-- Sequential fail-fast iteration (a JS `for...of` loop whose body can
abort the compilation). -/
def seqRun (step : α → St → Except Err St) : List α → St → Except Err St
  | [], st => .ok st
  | x :: rest, st =>
    match step x st with
    | .ok st' => seqRun step rest st'
    | .error e => .error e

/-- `tpl.resolve_acts()`: the loop over the registered actions. -/
def resolve_acts (st : St) : Except Err St :=
  seqRun resolveAct st.actsReg st

/-! ### Emission -/

/-- Rendering of one fragment against an emission environment:
`es.string(binding)` for `.str` (literal endpoints are JSON-quoted, slot
endpoints render their symbol, renamed through the capture map when one
is present and has an entry), `binding.resolve().asBool()` for
`.boolOf`. -/
def renderFrag (caps : Option (List (String × String))) (fr : Frag) (st : St) :
    Except Err (String × St) :=
  match fr with
  | .lit s => .ok (s, st)
  | .str bid =>
    match bndResolve st bid with
    | .error e => .error e
    | .ok (r, st') =>
      match r with
      | .literal _ v => .ok (jsonStringify v, st')
      | .slot sid =>
        match st'.slots[sid]? with
        | none => .error .nullCrash
        | some sl =>
          match caps with
          | some m =>
            match lookupA sl.sym m with
            | some cap => .ok (cap, st')
            | none => .ok (sl.sym, st')
          | none => .ok (sl.sym, st')
      | .inst _ => .error (.badEndpoint ("instance"))
  | .boolOf bid =>
    match bndResolve st bid with
    | .error e => .error e
    | .ok (r, st') =>
      match r with
      | .literal t v =>
        if t = ("boolean") then .ok (jsToString v, st')
        else .error (.notBool (resPathStr st' r))
      | .slot sid =>
        match st'.slots[sid]? with
        | none => .error .nullCrash
        | some sl =>
          if sl.type = ("boolean") then .ok (sl.sym, st')
          else .error (.notBool (resPathStr st' r))
      | .inst _ => .error .nullCrash

/-- Concatenated rendering of a whole line's fragments. -/
def renderFrags (caps : Option (List (String × String))) :
    List Frag → St → Except Err (String × St)
  | [], st => .ok (("") , st)
  | fr :: rest, st =>
    match renderFrag caps fr st with
    | .error e => .error e
    | .ok (s, st') =>
      match renderFrags caps rest st' with
      | .error e => .error e
      | .ok (s', st'') => .ok (s ++ s', st'')

/-- One emission statement, parameterized by the evaluator used to enter
another action's body (`enter`), mirroring `EmitContext`: `emit` appends
one line at the current prefix; `emit_triggered` first requires a slot
(the subsequent `mode !== 'const'` test can never fail for a real
`ValueSlot`, whose constructor always sets `'once'`) and then runs the
queued actions in order, one indentation level deeper, through contexts
built *without* the capture map; `runWithCaptures` is the join actor's
inner emission at absolute prefix `'  '` carrying the capture map. -/
def stepStmt (enter : Option (List (String × String)) → String → Nat → St → Except Err St)
    (caps : Option (List (String × String))) (pre : String) (s : EStmt) (st : St) :
    Except Err St :=
  match s with
  | .emit frags =>
    match renderFrags caps frags st with
    | .error e => .error e
    | .ok (txt, st') => .ok { st' with lines := st'.lines ++ [pre ++ txt] }
  | .emitTriggered target ind =>
    match target with
    | .slot sid =>
      match st.slots[sid]? with
      | none => .error .nullCrash
      | some sl => seqRun (fun aid s' => enter none (pre ++ ind) aid s') sl.queued st
    | _ => .error .notSlot
  | .runWithCaptures aid m => enter (some m) ("  ") aid st

/-- Entering one action's emission callback.  The fuel only bounds the
nesting depth of body entries (the source recursion is over the finite
emission structure); it is otherwise inert. -/
def evalActBody : Nat → Option (List (String × String)) → String → Nat → St → Except Err St
  | 0, _, _, _, _ => .error .outOfFuel
  | f + 1, caps, pre, aid, st =>
    match st.heap[aid]? with
    | none => .error .nullCrash
    | some a => seqRun (stepStmt (evalActBody f) caps pre) a.body st

/-- One statement at a given depth bound. -/
def evalStmt (f : Nat) (caps : Option (List (String × String))) (pre : String)
    (s : EStmt) (st : St) : Except Err St :=
  stepStmt (evalActBody f) caps pre s st

/-- The deduplicated import declarations, in first-use order. -/
def importLines (st : St) : List String :=
  st.imports.map (fun p =>
    ("var ") ++ p.2 ++ (" = require(\"") ++ (libs p.1).getD ("undefined") ++ ("\");"))

/-- `tpl.emit_code()`: append the import lines and a blank line, then run
every root action at top level (prefix `''`, no capture map), in `roots`
order. -/
def emit_code (fuel : Nat) (st : St) : Except Err St :=
  seqRun (fun aid s => evalActBody fuel none ("") aid s)
    st.roots
    { st with lines := st.lines ++ importLines st ++ [("")] }

/-! ### The component library

Each definition function runs once per use-site against the instance
context API; the emission closures of the source become `EStmt` programs
holding the binding/slot ids and pre-computed symbol strings the closures
capture.  Braces inside generated-code strings are written `\x7b`/`\x7d`
and apostrophes `\x27`. -/

/-- The symbol (`.slot`) of a `ValueSlot` by heap id. -/
def slotSymD (st : St) (sid : Nat) : String :=
  match st.slots[sid]? with
  | some sl => sl.sym
  | none => ("undefined")

def ReadText (st0 : St) (iid : Nat) : Except Err St :=
  match instImports st0 iid ("fs") with
  | .error e => .error e
  | .ok (fsSym, st1) =>
    match bind_to st1 ("filename") ("text") iid none with
    | .error e => .error e
    | .ok (filename, st2) =>
      let (data, st3) := output st2 iid ("out") ("text")
      .ok (action st3 iid [.bnd filename]
        [.emit [.lit (fsSym ++ (".readFile(")), .str filename,
                .lit ((", \x27utf8\x27, function (err, ") ++ slotSymD st3 data ++ (") \x7b"))],
         .emit [.lit ("  if (err) throw err;")],
         .emitTriggered (.slot data) ("  "),
         .emit [.lit ("\x7d);")]])

def WriteText (st0 : St) (iid : Nat) : Except Err St :=
  match instImports st0 iid ("fs") with
  | .error e => .error e
  | .ok (fsSym, st1) =>
    match bind_to st1 ("filename") ("text") iid none with
    | .error e => .error e
    | .ok (filename, st2) =>
      match bind_to st2 ("in") ("text") iid none with
      | .error e => .error e
      | .ok (data, st3) =>
        .ok (action st3 iid [.bnd filename, .bnd data]
          [.emit [.lit (fsSym ++ (".writeFile(")), .str filename, .lit (", "), .str data,
                  .lit (", \x27utf8\x27, function (err) \x7b")],
           .emit [.lit ("  if (err) throw err;")],
           .emit [.lit ("\x7d);")]])

/-- `ConcatText`.  (The source also computes an unused local
`result = es.string(left)+es.string(right)` before emitting; those extra
`string()` calls only re-run the idempotent memoized resolution and have
no observable effect, so they are not modelled.) -/
def ConcatText (st0 : St) (iid : Nat) : Except Err St :=
  match bind_to st0 ("left") ("text") iid none with
  | .error e => .error e
  | .ok (left, st1) =>
    match bind_to st1 ("right") ("text") iid none with
    | .error e => .error e
    | .ok (right, st2) =>
      let (out, st3) := output st2 iid ("out") ("text")
      .ok (action st3 iid [.bnd left, .bnd right]
        [.emit [.lit (("const ") ++ slotSymD st3 out ++ (" = ")), .str left, .lit (" + "),
                .str right, .lit (";")],
         .emitTriggered (.slot out) ("")])

def LogText (st0 : St) (iid : Nat) : Except Err St :=
  match bind_to st0 ("in") ("text") iid none with
  | .error e => .error e
  | .ok (data, st1) =>
    .ok (action st1 iid [.bnd data]
      [.emit [.lit ("console.log("), .str data, .lit (");")]])

def ParseJSON (st0 : St) (iid : Nat) : Except Err St :=
  match bind_to st0 ("in") ("text") iid none with
  | .error e => .error e
  | .ok (inp, st1) =>
    let (out, st2) := output st1 iid ("out") ("json")
    .ok (action st2 iid [.bnd inp]
      [.emit [.lit (("const ") ++ slotSymD st2 out ++ (" = JSON.parse(")), .str inp, .lit (");")],
       .emitTriggered (.slot out) ("")])

def EncodeJSON (st0 : St) (iid : Nat) : Except Err St :=
  match bind_to st0 ("in") ("json") iid none with
  | .error e => .error e
  | .ok (inp, st1) =>
    let (out, st2) := output st1 iid ("out") ("text")
    .ok (action st2 iid [.bnd inp]
      [.emit [.lit (("const ") ++ slotSymD st2 out ++ (" = JSON.stringify(")), .str inp, .lit (");")],
       .emitTriggered (.slot out) ("")])

def LoadImage (st0 : St) (iid : Nat) : Except Err St :=
  match bind_to st0 ("src") ("text") iid none with
  | .error e => .error e
  | .ok (src, st1) =>
    let (elem, st2) := output st1 iid ("element") ("DOM:Element:Image")
    let (width, st3) := output st2 iid ("width") ("number")
    let (height, st4) := output st3 iid ("height") ("number")
    let elemSym := slotSymD st4 elem
    .ok (action st4 iid [.bnd src]
      [.emit [.lit (("var ") ++ elemSym ++ (" = new Image;"))],
       .emit [.lit (elemSym ++ (".onload = function () \x7b"))],
       .emitTriggered (.slot elem) ("  "),
       .emitTriggered (.slot width) ("  "),
       .emitTriggered (.slot height) ("  "),
       .emit [.lit ("\x7d;")],
       .emit [.lit (elemSym ++ (".src = ")), .str src, .lit (";")]])

/-- `WebGLCanvas`: five defaulted boolean inputs, five outputs, one
private slot, one action with a single multi-line template emission whose
`${...asBool()}` interpolations become `.boolOf` fragments and whose
`whenTrue()`/`whenFalse()` interpolations are the empty strings those
methods return. -/
def WebGLCanvas (st0 : St) (iid : Nat) : Except Err St :=
  match bind_to st0 ("alpha") ("boolean") iid (some (.bool false)) with
  | .error e => .error e
  | .ok (alpha, st1) =>
    match bind_to st1 ("depth") ("boolean") iid (some (.bool false)) with
    | .error e => .error e
    | .ok (depth, st2) =>
      match bind_to st2 ("stencil") ("boolean") iid (some (.bool false)) with
      | .error e => .error e
      | .ok (stencil, st3) =>
        match bind_to st3 ("antialias") ("boolean") iid (some (.bool false)) with
        | .error e => .error e
        | .ok (antialias, st4) =>
          match bind_to st4 ("preserveDrawingBuffer") ("boolean") iid (some (.bool false)) with
          | .error e => .error e
          | .ok (pdb, st5) =>
            let (canvas, st6) := output st5 iid ("element") ("DOM:Element:Canvas")
            let (glContext, st7) := output st6 iid ("context") ("DOM:WebGL:Context.v1")
            let (_noUse1, st8) := output st7 iid ("performanceCaveat") ("signal")
            let (_noUse2, st9) := output st8 iid ("noWebGL") ("signal")
            let (_noUse3, stA) := output st9 iid ("initialized") ("signal")
            let (sizeDirty, stB) := slotDecl stA iid ("sizeDirty") ("boolean")
            let (iwSym, stC) := uid stB ("initWebGL")
            let (dwSym, stD) := uid stC ("destWebGL")
            let sdSym := slotSymD stD sizeDirty
            let glSym := slotSymD stD glContext
            let cvSym := slotSymD stD canvas
            .ok (action stD iid []
              [.emit
                [.lit (("\nvar ") ++ sdSym ++ (" = true;\nvar ") ++ glSym ++ (" = null;\nvar ")
                  ++ cvSym ++ (" = document.createElement(\x27canvas\x27);\ndocument.body.insertBefore(")
                  ++ cvSym ++ (", document.body.firstChild);\n\n// https://www.khronos.org/webgl/wiki/HandlingContextLost\n")
                  ++ cvSym ++ (".addEventListener(\"webglcontextlost\", function(event) \x7b\n    event.preventDefault();\n    ")
                  ++ dwSym ++ ("();\n\x7d, false);\n")
                  ++ cvSym ++ (".addEventListener(\"webglcontextrestored\", ") ++ iwSym
                  ++ (", false);\n\nwindow.addEventListener(\x27resize\x27, function() \x7b\n  // Defer resizing the canvas until next frame.\n  // This approach avoids flicker in IE (clears canvas on resize)\n  // and avoids many extra redraws during Firefox fullscreen transition.\n  ")
                  ++ sdSym ++ (" = true;\n\x7d, false);\n\n") ++ iwSym ++ ("();\n\nfunction ")
                  ++ iwSym ++ ("() \x7b\n  var glopts = \x7b\n    alpha: ")),
                 .boolOf alpha,
                 .lit (",\n    depth: "),
                 .boolOf depth,
                 .lit (",\n    stencil: "),
                 .boolOf stencil,
                 .lit (",\n    antialias: "),
                 .boolOf antialias,
                 .lit (",\n    preserveDrawingBuffer: "),
                 .boolOf pdb,
                 .lit ((",\n    failIfMajorPerformanceCaveat: true\n  \x7d;\n  ")
                  ++ glSym ++ (" = canvas.getContext(\"webgl\", glopts) || canvas.getContext(\"experimental-webgl\", glopts);\n  if (!")
                  ++ glSym ++ (") \x7b\n    glopts.failIfMajorPerformanceCaveat = false;\n    ")
                  ++ glSym ++ (" = canvas.getContext(\"webgl\", glopts) || canvas.getContext(\"experimental-webgl\", glopts);\n    if (")
                  ++ glSym ++ (") \x7b\n      \n    \x7d else \x7b\n      \n      return;\n    \x7d\n  \x7d\n  \n  \n  sizeViewport();\n  \n\x7d\n\nfunction ")
                  ++ dwSym ++ ("() \x7b\n  \n  ") ++ glSym ++ (" = null;\n\x7d\n    "))]])

/-! ### The driver (`generate`) -/

/-- A use-site descriptor from the driver's `ast` (`use(is, id, args)`). -/
structure UseSite where
  is : String
  id : String
  args : List (String × Source)
deriving DecidableEq, Repr

/-- The component-definition registry (`module.exports` of the library). -/
def components : String → Option (St → Nat → Except Err St)
  | "ReadText" => some ReadText
  | "WriteText" => some WriteText
  | "LogText" => some LogText
  | "ParseJSON" => some ParseJSON
  | "EncodeJSON" => some EncodeJSON
  | "ConcatText" => some ConcatText
  | "LoadImage" => some LoadImage
  | "WebGLCanvas" => some WebGLCanvas
  | _ => none

/-- One iteration of the `generate` loop: look up the definition
(missing-definition failure), create the `InstanceContext`, register its
id (`bind_inst`, with the duplicate check), run the definition. -/
def generate1 (u : UseSite) (st : St) : Except Err St :=
  match components u.is with
  | none => .error (.missingDefn u.is)
  | some defn =>
    let iid := st.insts.length
    let st1 := { st with insts := st.insts ++
        [({ fields := [], args := u.args, whereStr := u.is ++ (":") ++ u.id } : Inst)] }
    match lookupA u.id st1.bound with
    | some _ => .error (.duplicateId u.id)
    | none => defn { st1 with bound := setKV u.id iid st1.bound } iid

/-- The initial `TemplateContext('main')`. -/
def initSt : St :=
  { name := ("main"), imports := [], uidMap := [], bound := [], lines := [],
    insts := [], slots := [], bnds := [], heap := [], actsReg := [], roots := [] }

/-- `generate(ast)`: construction pass, scheduling, emission; returns the
line sequence `tpl.write` would write out. -/
def generate (fuel : Nat) (ast : List UseSite) : Except Err (List String) :=
  match seqRun generate1 ast initSt with
  | .error e => .error e
  | .ok st1 =>
    match resolve_acts st1 with
    | .error e => .error e
    | .ok st2 =>
      match emit_code fuel st2 with
      | .error e => .error e
      | .ok st3 => .ok st3.lines

/-- The driver's `text(str)` helper. -/
def text (s : String) : Source :=
  .literal ("text") (.str s)

/-- The driver's `ref(str)` helper. -/
def ref (s : String) : Source :=
  .ref (mkRef s)

/-! ### Concrete graphs used as evaluation witnesses -/

/-- A three-instance graph whose `ConcatText` consumer depends on two
independent producers: the minimal join scenario. -/
def astJoin : List UseSite :=
  [⟨("ReadText"), ("rd"), [(("filename"), text ("a"))]⟩,
   ⟨("ReadText"), ("rd2"), [(("filename"), text ("b"))]⟩,
   ⟨("ConcatText"), ("cc"), [(("left"), ref ("rd.out")), (("right"), ref ("rd2.out"))]⟩]

/-- A graph whose argument references a nonexistent instance id. -/
def astDangling : List UseSite :=
  [⟨("ReadText"), ("rd"), [(("filename"), ref ("nope.out"))]⟩]

/-- The driver program of the source file (`const ast = [...]`). -/
def mainAst : List UseSite :=
  [⟨("WriteText"), ("wr"), [(("filename"), text ("copy.json")), (("in"), ref ("cc2.out"))]⟩,
   ⟨("EncodeJSON"), ("je"), [(("in"), ref ("jp.out"))]⟩,
   ⟨("ParseJSON"), ("jp"), [(("in"), ref ("rd.out"))]⟩,
   ⟨("ReadText"), ("rd"), [(("filename"), text ("../curseof/package.json"))]⟩,
   ⟨("ReadText"), ("rd2"), [(("filename"), text ("../curseof/package.json"))]⟩,
   ⟨("ConcatText"), ("cc1"), [(("left"), ref ("je.out")), (("right"), text (" and DONE."))]⟩,
   ⟨("ConcatText"), ("cc2"), [(("left"), ref ("cc1.out")), (("right"), ref ("rd2.out"))]⟩,
   ⟨("LogText"), ("log1"), [(("in"), ref ("cc2.out"))]⟩]

/-- A tiny hand-built compiler state: one instance, two produced slots,
one registered action waiting on both slots (by raw slot dependency). -/
def demoJoinSt : St :=
  { name := ("main"), imports := [], uidMap := [], bound := [], lines := [],
    insts := [({ fields := [], args := [], whereStr := ("A:a") } : Inst)],
    slots := [({ type := ("text"), sym := ("x"), field := ("o1"), instId := 0, queued := [] } : Slot),
              ({ type := ("text"), sym := ("y"), field := ("o2"), instId := 0, queued := [] } : Slot)],
    bnds := [],
    heap := [({ wait := [.slotDep 0, .slotDep 1], body := [], instId := 0 } : Act)],
    actsReg := [0], roots := [] }

/-- A produced slot with one queued action (heap id 2). -/
def demoSlot0 : Slot :=
  { type := ("text"), sym := ("x"), field := ("o1"), instId := 0, queued := [2] }

/-- A binding to a constant text literal. -/
def demoBnd0 : Bnd :=
  { toRef := .literal ("text") (.str ("v")), type := ("text"), field := ("in"),
    instId := 0, resolved := none }

/-- A tiny state with one constant-only action and one single-dependency
action, plus an action queued on the slot, for classification and
triggering witnesses. -/
def demoRootSt : St :=
  { name := ("main"), imports := [(("fs"), ("fs_1"))], uidMap := [], bound := [], lines := [],
    insts := [({ fields := [], args := [], whereStr := ("A:a") } : Inst)],
    slots := [demoSlot0],
    bnds := [demoBnd0],
    heap := [({ wait := [.bnd 0], body := [.emit [.lit ("root line;")]], instId := 0 } : Act),
             ({ wait := [.slotDep 0], body := [.emit [.lit ("dep line;")]], instId := 0 } : Act),
             ({ wait := [], body := [.emit [.lit ("queued line;")]], instId := 0 } : Act)],
    actsReg := [0, 1], roots := [] }

/-- `demoRootSt` after binding 0 has memoized its literal endpoint. -/
def demoRootSt1 : St :=
  { demoRootSt with bnds := demoRootSt.bnds.set 0 { demoBnd0 with resolved := some (.literal ("text") (.str ("v"))) } }

/-- A state with a single binding whose endpoint type tag differs from
the binding's declared type. -/
def demoMismatchSt : St :=
  { initSt with
    insts := [({ fields := [], args := [], whereStr := ("A:a") } : Inst)],
    bnds := [({ toRef := .literal ("number") (.num 7), type := ("text"), field := ("in"),
                instId := 0, resolved := none } : Bnd)] }

/-- A state with one binding whose reference names an unregistered
instance id. -/
def demoDanglingSt : St :=
  { initSt with bnds := [({ toRef := ref ("nope.out"), type := ("text"), field := ("in"), instId := 0, resolved := none } : Bnd)] }

/-- An unresolved binding referencing `p.out` (first consumer input). -/
def bndA : Bnd :=
  { toRef := ref ("p.out"), type := ("text"), field := ("a"),
    instId := 1, resolved := none }

/-- A second unresolved binding sharing the same `Reference` source. -/
def bndB : Bnd :=
  { toRef := ref ("p.out"), type := ("text"), field := ("b"),
    instId := 1, resolved := none }

/-- A state with two unresolved bindings sharing one `Reference` source,
and the referenced producer instance, for the memoization claims. -/
def demoMemoSt : St :=
  { initSt with
    bound := [(("p"), 0)],
    insts := [({ fields := [(("out"), 0)], args := [], whereStr := ("P:p") } : Inst),
              ({ fields := [], args := [], whereStr := ("C:c") } : Inst)],
    slots := [({ type := ("text"), sym := ("out_1"), field := ("out"), instId := 0,
                 queued := [] } : Slot)],
    bnds := [bndA, bndB] }

/-- `demoMemoSt` after binding 0 has memoized its endpoint. -/
def demoMemoSt1 : St :=
  { demoMemoSt with bnds := demoMemoSt.bnds.set 0 { bndA with resolved := some (.slot 0) } }

/-! ### Generic iteration lemmas -/

theorem seqRun_append (step : α → St → Except Err St) (l1 l2 : List α) (st : St) :
    seqRun step (l1 ++ l2) st =
      match seqRun step l1 st with
      | .ok st' => seqRun step l2 st'
      | .error e => .error e := by
  induction l1 generalizing st with
  | nil => simp [seqRun]
  | cons x rest ih =>
    simp only [List.cons_append, seqRun]
    cases step x st with
    | ok st' => exact ih st'
    | error e => rfl

theorem lookupA_setKV_self (k : String) (v : α) (m : List (String × α)) :
    lookupA k (setKV k v m) = some v := by
  induction m with
  | nil => simp [setKV, lookupA]
  | cons p rest ih =>
    by_cases h : p.1 = k
    · simp [setKV, h, lookupA]
    · simp [setKV, h, lookupA, ih]

theorem lookupA_setKV_ne (k k' : String) (v : α) (m : List (String × α)) (h : k' ≠ k) :
    lookupA k' (setKV k v m) = lookupA k' m := by
  induction m with
  | nil =>
    simp only [setKV, lookupA]
    rw [if_neg (Ne.symm h)]
  | cons p rest ih =>
    by_cases hp : p.1 = k
    · simp only [setKV, if_pos hp, lookupA]
      rw [if_neg (Ne.symm h), if_neg (show ¬p.1 = k' from fun hh => h (by rw [← hh]; exact hp))]
    · simp only [setKV, if_neg hp, lookupA, ih]

/-! ### Decimal rendering lemmas -/

theorem decVal_append_last (l : List Nat) (d : Nat) :
    decVal (l ++ [d]) = 10 * decVal l + d := by
  simp [decVal, List.foldl_append]

theorem decAux_val : ∀ f n, n ≤ f → decVal (decAux f n) = n := by
  intro f
  induction f with
  | zero =>
    intro n hn
    interval_cases n
    simp [decAux, decVal]
  | succ f ih =>
    intro n hn
    by_cases h : n < 10
    · simp [decAux, h, decVal]
    · have hd : n / 10 < n := Nat.div_lt_self (by omega) (by omega)
      have : decAux (f + 1) n = decAux f (n / 10) ++ [n % 10] := by
        simp [decAux, h]
      rw [this, decVal_append_last, ih (n / 10) (by omega)]
      omega

theorem decAux_lt : ∀ f n, n ≤ f → ∀ d ∈ decAux f n, d < 10 := by
  intro f
  induction f with
  | zero =>
    intro n hn
    interval_cases n
    simp [decAux]
  | succ f ih =>
    intro n hn d hd
    by_cases h : n < 10
    · simp [decAux, h] at hd
      omega
    · have hlt : n / 10 < n := Nat.div_lt_self (by omega) (by omega)
      simp only [decAux, if_neg h, List.mem_append, List.mem_singleton] at hd
      rcases hd with hd | hd
      · exact ih (n / 10) (by omega) d hd
      · subst hd
        exact Nat.mod_lt n (by omega)

theorem digitChar_inj : ∀ d1 < 10, ∀ d2 < 10, digitChar d1 = digitChar d2 → d1 = d2 := by
  decide

theorem digitChar_ne_us : ∀ d < 10, digitChar d ≠ '_' := by
  decide

theorem map_digitChar_inj :
    ∀ l1 l2 : List Nat, (∀ d ∈ l1, d < 10) → (∀ d ∈ l2, d < 10) →
      l1.map digitChar = l2.map digitChar → l1 = l2 := by
  intro l1
  induction l1 with
  | nil =>
    intro l2 _ _ h
    cases l2 with
    | nil => rfl
    | cons y t => simp at h
  | cons x t ih =>
    intro l2 h1 h2 h
    cases l2 with
    | nil => simp at h
    | cons y t2 =>
      simp only [List.map_cons, List.cons.injEq] at h
      have hx := digitChar_inj x (h1 x (by simp)) y (h2 y (by simp)) h.1
      have ht := ih t2 (fun d hd => h1 d (by simp [hd])) (fun d hd => h2 d (by simp [hd])) h.2
      rw [hx, ht]

theorem natToDec_inj {m n : Nat} (h : natToDec m = natToDec n) : m = n := by
  have hd : (decAux m m).map digitChar = (decAux n n).map digitChar :=
    congrArg String.data h
  have heq := map_digitChar_inj (decAux m m) (decAux n n)
    (decAux_lt m m (Nat.le_refl m)) (decAux_lt n n (Nat.le_refl n)) hd
  have hm := decAux_val m m (Nat.le_refl m)
  have hn := decAux_val n n (Nat.le_refl n)
  rw [← hm, ← hn, heq]

theorem natToDec_no_us (n : Nat) : '_' ∉ (natToDec n).data := by
  intro h
  simp only [natToDec, List.mem_map] at h
  rcases h with ⟨d, hd, hdc⟩
  exact digitChar_ne_us d (decAux_lt n n (Nat.le_refl n) d hd) hdc

/-! ### The separator lemma and `uid` symbol disjointness -/

theorem sep_append_inj (c : Char) :
    ∀ l1 l2 r1 r2 : List Char, c ∉ r1 → c ∉ r2 →
      l1 ++ c :: r1 = l2 ++ c :: r2 → l1 = l2 ∧ r1 = r2 := by
  intro l1
  induction l1 with
  | nil =>
    intro l2 r1 r2 h1 _h2 h
    cases l2 with
    | nil => simpa using h
    | cons y t =>
      simp only [List.nil_append, List.cons_append, List.cons.injEq] at h
      exact absurd (h.2 ▸ List.mem_append_right t (List.mem_cons_self c _)) h1
  | cons x t ih =>
    intro l2 r1 r2 h1 h2 h
    cases l2 with
    | nil =>
      simp only [List.nil_append, List.cons_append, List.cons.injEq] at h
      exact absurd (h.2.symm ▸ List.mem_append_right t (List.mem_cons_self c _)) h2
    | cons y t2 =>
      simp only [List.cons_append, List.cons.injEq] at h
      have := ih t2 r1 r2 h1 h2 h.2
      exact ⟨by rw [h.1, this.1], this.2⟩

theorem uidSym_data (b : String) (n : Nat) :
    (uidSym b n).data = b.data ++ '_' :: (natToDec n).data := by
  simp [uidSym, String.data_append]

theorem uidSym_inj {b1 b2 : String} {n1 n2 : Nat} (h : uidSym b1 n1 = uidSym b2 n2) :
    b1 = b2 ∧ n1 = n2 := by
  have hd : b1.data ++ '_' :: (natToDec n1).data = b2.data ++ '_' :: (natToDec n2).data := by
    rw [← uidSym_data, ← uidSym_data, h]
  have := sep_append_inj '_' b1.data b2.data (natToDec n1).data (natToDec n2).data
    (natToDec_no_us n1) (natToDec_no_us n2) hd
  exact ⟨String.ext this.1, natToDec_inj (String.ext this.2)⟩

theorem uid_fst (st : St) (b : String) : (uid st b).1 = uidSym b (uidCount st b + 1) := rfl

theorem uid_count_self (st : St) (b : String) :
    uidCount (uid st b).2 b = uidCount st b + 1 := by
  simp [uid, uidCount, lookupA_setKV_self]

theorem uid_count_le (st : St) (b n : String) :
    uidCount st b ≤ uidCount (uid st n).2 b := by
  by_cases h : b = n
  · subst h
    rw [uid_count_self]
    omega
  · simp [uid, uidCount, lookupA_setKV_ne n b _ _ h]

theorem uidSeq_count_le : ∀ (names : List String) (st : St) (b : String),
    uidCount st b ≤ uidCount ((uidSeq st names).2) b := by
  intro names
  induction names with
  | nil => intro st b; simp [uidSeq]
  | cons n rest ih =>
    intro st b
    calc uidCount st b ≤ uidCount (uid st n).2 b := uid_count_le st b n
    _ ≤ _ := by
        have := ih (uid st n).2 b
        simpa [uidSeq] using this

theorem uidSeq_avoid : ∀ (names : List String) (st : St) (b : String) (k : Nat),
    k ≤ uidCount st b → ∀ s ∈ (uidSeq st names).1, s ≠ uidSym b k := by
  intro names
  induction names with
  | nil => intro st b k _ s hs; simp [uidSeq] at hs
  | cons n rest ih =>
    intro st b k hk s hs
    simp only [uidSeq, List.mem_cons] at hs
    rcases hs with hs | hs
    · subst hs
      rw [uid_fst]
      intro heq
      rcases uidSym_inj heq with ⟨hb, hn⟩
      subst hb
      omega
    · exact ih (uid st n).2 b k (Nat.le_trans hk (uid_count_le st b n)) s hs

theorem uidSeq_pairwise : ∀ (names : List String) (st : St),
    ((uidSeq st names).1).Pairwise (fun a c => a ≠ c) := by
  intro names
  induction names with
  | nil => intro st; simp [uidSeq]
  | cons n rest ih =>
    intro st
    simp only [uidSeq]
    refine List.Pairwise.cons ?_ (ih (uid st n).2)
    intro s hs
    have := uidSeq_avoid rest (uid st n).2 n (uidCount st n + 1)
      (by rw [uid_count_self]) s hs
    rw [uid_fst]
    exact fun h => this h.symm

/-- C10: every symbol `uid` returns is its base followed by an underscore
and the strictly increasing per-base counter; counters render without an
underscore, so symbols from one base are pairwise distinct and can never
collide with symbols from a different base; hence any sequence of `uid`
calls returns pairwise-distinct symbols. -/
theorem C10_uid_unique :
    (∀ st b, (uid st b).1 = uidSym b (uidCount st b + 1))
  ∧ (∀ st b, uidCount (uid st b).2 b = uidCount st b + 1)
  ∧ (∀ b n1 n2, n1 ≠ n2 → uidSym b n1 ≠ uidSym b n2)
  ∧ (∀ b1 b2 n1 n2, b1 ≠ b2 → uidSym b1 n1 ≠ uidSym b2 n2)
  ∧ (∀ st names, ((uidSeq st names).1).Pairwise (fun a c => a ≠ c)) := by
  refine ⟨uid_fst, uid_count_self, ?_, ?_, fun st names => uidSeq_pairwise names st⟩
  · intro b n1 n2 hne h
    exact hne (uidSym_inj h).2
  · intro b1 b2 n1 n2 hne h
    exact hne (uidSym_inj h).1

/-- C10 witness: the cross-base clause at the collision-shaped concrete
pair `out_1` + counter 1 vs `out` + counter 11, and a concrete call
sequence, evaluated. -/
theorem C10_uid_unique_witness :
    uidSym ("out_1") 1 ≠ uidSym ("out") 11
    ∧ (uidSeq initSt [("out"), ("out"), ("out_1")]).1
        = [("out_1"), ("out_2"), ("out_1_1")] := by
  exact ⟨C10_uid_unique.2.2.2.1 ("out_1") ("out") 1 11 (by decide), by rfl⟩

/-! ### Invariance of path resolution under binding-memo updates -/

theorem instPathStr_congr (st st' : St) (h1 : st'.insts = st.insts) (h2 : st'.name = st.name)
    (iid : Nat) : instPathStr st' iid = instPathStr st iid := by
  simp [instPathStr, h1, h2]

theorem resPathStr_congr (st st' : St) (h1 : st'.insts = st.insts) (h2 : st'.name = st.name)
    (h3 : st'.slots = st.slots) (r : Res) : resPathStr st' r = resPathStr st r := by
  cases r <;> simp [resPathStr, h1, h3, instPathStr_congr st st' h1 h2]

theorem pathLoop_congr (st st' : St) (h1 : st'.insts = st.insts) (h2 : st'.name = st.name)
    (h3 : st'.slots = st.slots) :
    ∀ (rest : List String) (cur : Res), pathLoop st' cur rest = pathLoop st cur rest := by
  intro rest
  induction rest with
  | nil => intro cur; rfl
  | cons f rest ih =>
    intro cur
    cases cur with
    | inst iid =>
      simp only [pathLoop, h1, instPathStr_congr st st' h1 h2]
      split
      · rfl
      · split
        · rfl
        · exact ih _
    | literal t v => simp only [pathLoop, resPathStr_congr st st' h1 h2 h3]
    | slot sid => simp only [pathLoop, resPathStr_congr st st' h1 h2 h3]

theorem resolve_path_congr (st st' : St) (h0 : st'.bound = st.bound)
    (h1 : st'.insts = st.insts) (h2 : st'.name = st.name) (h3 : st'.slots = st.slots) :
    ∀ p, resolve_path st' p = resolve_path st p := by
  intro p
  cases p with
  | nil => rfl
  | cons p0 rest =>
    simp only [resolve_path, h0]
    cases lookupA p0 st.bound with
    | none => rfl
    | some iid => exact pathLoop_congr st st' h1 h2 h3 rest (.inst iid)

/-- A successful `Binding.resolve` changes nothing but the binding heap
(the memo write). -/
theorem bndResolve_shape (st : St) (bid : Nat) (r : Res) (st' : St)
    (h : bndResolve st bid = .ok (r, st')) :
    ∃ bnds', st' = { st with bnds := bnds' } := by
  cases hb : st.bnds[bid]? with
  | none => simp [bndResolve, hb] at h
  | some b =>
    cases hm : b.resolved with
    | some r0 =>
      simp only [bndResolve, hb, hm, Except.ok.injEq, Prod.mk.injEq] at h
      exact ⟨st.bnds, by rw [← h.2]⟩
    | none =>
      simp only [bndResolve, hb, hm] at h
      cases hs : srcResolve st b.toRef with
      | error e => simp [hs] at h
      | ok o =>
        cases o with
        | none => simp [hs] at h
        | some r0 =>
          simp only [hs] at h
          by_cases ht : typeTagOf st r0 = some b.type
          · rw [if_pos ht] at h
            simp only [Except.ok.injEq, Prod.mk.injEq] at h
            exact ⟨st.bnds.set bid { b with resolved := some r0 }, h.2.symm⟩
          · rw [if_neg ht] at h
            exact absurd h (by simp)

/-- C8: an `input()` whose argument is omitted binds to a literal holding
the default when one is supplied, and aborts with the missing-field
diagnostic when none is. -/
theorem C8_input_default_or_missing
    (st : St) (iid : Nat) (name ty : String) (dflt : Option JVal) (inst : Inst)
    (hinst : st.insts[iid]? = some inst)
    (habs : lookupA name inst.args = none) :
    (∀ v, dflt = some v →
      bind_to st name ty iid dflt = .ok (st.bnds.length,
        { st with bnds := st.bnds ++
            [({ toRef := .literal (defaultLitType v) v, type := ty, field := name,
                instId := iid, resolved := none } : Bnd)] }))
    ∧ (dflt = none →
      bind_to st name ty iid dflt = .error (.missingField name (instPathStr st iid))) := by
  constructor
  · intro v hv
    subst hv
    simp [bind_to, mkBindingTo, hinst, habs]
  · intro hv
    subst hv
    simp [bind_to, mkBindingTo, hinst, habs]

/-- C8 witness: both branches on a concrete state, concrete inputs. -/
theorem C8_input_default_or_missing_witness :
    bind_to demoRootSt ("w") ("boolean") 0 (some (.bool false))
      = .ok (1, { demoRootSt with bnds := demoRootSt.bnds ++
          [({ toRef := .literal ("boolean") (.bool false), type := ("boolean"),
              field := ("w"), instId := 0, resolved := none } : Bnd)] })
    ∧ bind_to demoRootSt ("w") ("boolean") 0 none
      = .error (.missingField ("w") (instPathStr demoRootSt 0)) := by
  have h1 := C8_input_default_or_missing demoRootSt 0 ("w") ("boolean")
    (some (.bool false)) _ rfl rfl
  have h2 := C8_input_default_or_missing demoRootSt 0 ("w") ("boolean")
    none _ rfl rfl
  exact ⟨h1.1 (.bool false) rfl, h2.2 rfl⟩

/-- C5: a binding whose source resolves to a terminal endpoint with type
tag `u` different from the declared type fails with the type-mismatch
diagnostic, and in particular is never resolved successfully (no silent
coercion). -/
theorem C5_type_mismatch
    (st : St) (bid : Nat) (b : Bnd) (r : Res) (u : String)
    (hb : st.bnds[bid]? = some b)
    (hmemo : b.resolved = none)
    (hres : srcResolve st b.toRef = .ok (some r))
    (htag : typeTagOf st r = some u)
    (hne : u ≠ b.type) :
    bndResolve st bid = .error (.typeMismatch b.field b.type u (instPathStr st b.instId))
    ∧ ∀ out, bndResolve st bid ≠ .ok out := by
  have hmain : bndResolve st bid
      = .error (.typeMismatch b.field b.type u (instPathStr st b.instId)) := by
    simp only [bndResolve, hb, hmemo, hres, htag]
    rw [if_neg (show ¬(some u = some b.type) from fun hh => hne (Option.some.inj hh))]
    simp [showTag]
  exact ⟨hmain, fun out h => by rw [hmain] at h; exact absurd h (by simp)⟩

/-- C5 witness: a number literal bound as `text` on a concrete state. -/
theorem C5_type_mismatch_witness :
    bndResolve demoMismatchSt 0
      = .error (.typeMismatch ("in") ("text") ("number") (instPathStr demoMismatchSt 0)) :=
  (C5_type_mismatch demoMismatchSt 0 _ (.literal ("number") (.num 7)) ("number")
    rfl rfl rfl rfl (by decide)).1

/-- C6: a binding's first successful resolve memoizes the endpoint (memo
hits return it with the state untouched, and resolving again after any
successful resolve returns the same endpoint and state); an unresolved
binding whose source is a `Reference` resolves it afresh through
`resolve_path` (a `Reference` caches nothing), and the memo write
performed by a binding's resolve leaves `resolve_path` — hence every
other binding's fresh resolution — unchanged. -/
theorem C6_memoization :
    (∀ st bid (b : Bnd) r, st.bnds[bid]? = some b → b.resolved = some r →
        bndResolve st bid = .ok (r, st))
  ∧ (∀ st bid r st', bndResolve st bid = .ok (r, st') →
        bndResolve st' bid = .ok (r, st'))
  ∧ (∀ st bid (b : Bnd) rf, st.bnds[bid]? = some b → b.resolved = none →
        b.toRef = .ref rf →
        bndResolve st bid = (match resolve_path st rf.path with
          | .error e => .error e
          | .ok none => .error .nullCrash
          | .ok (some r) =>
            if typeTagOf st r = some b.type then
              .ok (r, { st with bnds := st.bnds.set bid { b with resolved := some r } })
            else
              .error (.typeMismatch b.field b.type (showTag (typeTagOf st r))
                (instPathStr st b.instId))))
  ∧ (∀ st bid r st' p, bndResolve st bid = .ok (r, st') →
        resolve_path st' p = resolve_path st p) := by
  refine ⟨?_, ?_, ?_, ?_⟩
  · intro st bid b r hb hm
    simp [bndResolve, hb, hm]
  · intro st bid r st' h
    cases hb : st.bnds[bid]? with
    | none => simp [bndResolve, hb] at h
    | some b =>
      cases hm : b.resolved with
      | some r0 =>
        simp only [bndResolve, hb, hm, Except.ok.injEq, Prod.mk.injEq] at h
        rcases h with ⟨hr, hst⟩
        subst hst
        simp [bndResolve, hb, hm, hr]
        
      | none =>
        simp only [bndResolve, hb, hm] at h
        cases hs : srcResolve st b.toRef with
        | error e => simp [hs] at h
        | ok o =>
          cases o with
          | none => simp [hs] at h
          | some r0 =>
            simp only [hs] at h
            by_cases ht : typeTagOf st r0 = some b.type
            · rw [if_pos ht] at h
              simp only [Except.ok.injEq, Prod.mk.injEq] at h
              rcases h with ⟨hr, hst⟩
              subst hr
              subst hst
              have hlt : bid < st.bnds.length := (List.getElem?_eq_some.mp hb).1
              have hget : (st.bnds.set bid { b with resolved := some r0 })[bid]?
                  = some { b with resolved := some r0 } :=
                List.getElem?_set_eq_of_lt _ hlt
              simp [bndResolve, hget]
            · rw [if_neg ht] at h
              exact absurd h (by simp)
  · intro st bid b rf hb hm hrf
    simp only [bndResolve, hb, hm, hrf, srcResolve]
  · intro st bid r st' p h
    rcases bndResolve_shape st bid r st' h with ⟨bnds', hst⟩
    subst hst
    exact resolve_path_congr st { st with bnds := bnds' } rfl rfl rfl rfl p

/-- C6 witness: on a concrete two-binding state, the first resolve of
binding 0 memoizes the slot endpoint, and the memo write leaves
`resolve_path` on the shared reference path unchanged. -/
theorem C6_memoization_witness :
    bndResolve demoMemoSt 0 = .ok (.slot 0, demoMemoSt1)
    ∧ resolve_path demoMemoSt1 [("p"), ("out")]
        = resolve_path demoMemoSt [("p"), ("out")] := by
  have h1 : bndResolve demoMemoSt 0 = .ok (.slot 0, demoMemoSt1) :=
    (C6_memoization.2.2.1 demoMemoSt 0 bndA (mkRef ("p.out")) rfl rfl rfl).trans (by rfl)
  exact ⟨h1, C6_memoization.2.2.2 demoMemoSt 0 _ _ [("p"), ("out")] h1⟩

/-- C3 counterexample: a graph whose only argument references the
nonexistent instance `nope` aborts with `nullCrash` — the uncaught JS
`TypeError` raised by the `ref.type` access on the `null` that
`resolve_path` returns — and not with an unknown-instance diagnostic:
`Err` enumerates every `error(...)` call site of the source, and none
reports an unknown instance (resolve_path silently returns `null`). -/
theorem C3_unknown_instance_counterexample :
    generate 20 astDangling = .error .nullCrash := rfl

/-- C3 amended: resolving a Reference whose first path segment is not a
registered instance id returns JS `null` with no diagnostic; the binding
that resolves it then aborts the compilation with the uncaught `TypeError`
(`nullCrash`) from `ref.type`, so compilation still stops before any
output is produced, but with a crash rather than an unknown-instance
diagnostic. -/
theorem C3_unknown_instance_null
    (st : St) (p0 : String) (rest : List String)
    (habs : lookupA p0 st.bound = none) :
    resolve_path st (p0 :: rest) = .ok none
    ∧ (∀ bid (b : Bnd) rf, st.bnds[bid]? = some b → b.resolved = none →
        b.toRef = .ref rf → rf.path = p0 :: rest →
        bndResolve st bid = .error .nullCrash) := by
  have h1 : resolve_path st (p0 :: rest) = .ok none := by
    simp only [resolve_path, habs]
  refine ⟨h1, ?_⟩
  intro bid b rf hb hm hrf hpath
  simp only [bndResolve, hb, hm, hrf, srcResolve, hpath, h1]

/-- C3 amended witness: the dangling binding on a concrete state. -/
theorem C3_unknown_instance_null_witness :
    resolve_path demoDanglingSt [("nope"), ("out")] = .ok none
    ∧ bndResolve demoDanglingSt 0 = .error .nullCrash := by
  have h := C3_unknown_instance_null demoDanglingSt ("nope") [("out")] rfl
  exact ⟨h.1, h.2 0 _ (mkRef ("nope.out")) rfl rfl rfl (by rfl)⟩

/-! ### Join-synthesis machinery lemmas -/

theorem capGen_ok_valid : ∀ (needs : List Nat) (st : St) (ps : List (String × String))
    (st3 : St), capGen st needs = .ok (ps, st3) → ∀ s ∈ needs, (st.slots[s]?).isSome := by
  intro needs
  induction needs with
  | nil => intro st ps st3 _ s hs; simp at hs
  | cons sid rest ih =>
    intro st ps st3 h s hs
    cases hsl : st.slots[sid]? with
    | none => simp [capGen, hsl] at h
    | some sl =>
      rcases List.mem_cons.mp hs with hh | hh
      · subst hh; simp [hsl]
      · simp only [capGen, hsl] at h
        cases hr : capGen (uid st sl.sym).2 rest with
        | error e => rw [hr] at h; exact absurd h (by simp)
        | ok pr =>
          rw [hr] at h
          exact ih (uid st sl.sym).2 pr.1 pr.2 (by rw [hr]) s hh

theorem capGen_spec : ∀ (needs : List Nat) (st : St),
    (∀ s ∈ needs, (st.slots[s]?).isSome) →
    ∃ ps u, capGen st needs = .ok (ps, { st with uidMap := u })
      ∧ ps.map (fun p => p.1) = needs.map (slotSymD st)
      ∧ ps.map (fun p => p.2) = (uidSeq st (needs.map (slotSymD st))).1 := by
  intro needs
  induction needs with
  | nil =>
    intro st _
    exact ⟨[], st.uidMap, rfl, rfl, rfl⟩
  | cons sid rest ih =>
    intro st hval
    rcases Option.isSome_iff_exists.mp (hval sid (by simp)) with ⟨sl, hsl⟩
    have hval' : ∀ s ∈ rest, (((uid st sl.sym).2).slots[s]?).isSome := by
      intro s hs
      have e : (uid st sl.sym).2.slots = st.slots := rfl
      rw [e]
      exact hval s (by simp [hs])
    rcases ih (uid st sl.sym).2 hval' with ⟨ps, u, hok, h1, h2⟩
    have hss : slotSymD (uid st sl.sym).2 = slotSymD st := rfl
    refine ⟨(sl.sym, (uid st sl.sym).1) :: ps, u, ?_, ?_, ?_⟩
    · simp only [capGen, hsl]
      rw [show uid st sl.sym = ((uid st sl.sym).1, (uid st sl.sym).2) from rfl, hok]
      rfl
    · simp only [List.map_cons, h1, hss, slotSymD, hsl]
    · simp only [List.map_cons, h2, hss, slotSymD, hsl, uidSeq]

theorem foldl_setKV_not_mem :
    ∀ (ps : List (String × String)) (m : List (String × String)) (k : String),
      k ∉ ps.map Prod.fst →
      lookupA k (ps.foldl (fun acc p => setKV p.1 p.2 acc) m) = lookupA k m := by
  intro ps
  induction ps with
  | nil => intro m k _; rfl
  | cons p rest ih =>
    intro m k hk
    simp only [List.map_cons, List.mem_cons] at hk
    push_neg at hk
    rw [List.foldl_cons, ih (setKV p.1 p.2 m) k hk.2, lookupA_setKV_ne p.1 k p.2 m hk.1]

theorem foldl_setKV_get :
    ∀ (ps : List (String × String)) (m : List (String × String)),
      (ps.map Prod.fst).Nodup → ∀ j (hj : j < ps.length),
      lookupA (ps.get ⟨j, hj⟩).1 (ps.foldl (fun acc p => setKV p.1 p.2 acc) m)
        = some (ps.get ⟨j, hj⟩).2 := by
  intro ps
  induction ps with
  | nil => intro m _ j hj; exact absurd hj (by simp)
  | cons p rest ih =>
    intro m hnd j hj
    rw [List.map_cons] at hnd
    have hnds := List.nodup_cons.mp hnd
    cases j with
    | zero =>
      rw [List.foldl_cons]
      have : (((p :: rest).get ⟨0, hj⟩) : String × String) = p := rfl
      rw [this, foldl_setKV_not_mem rest (setKV p.1 p.2 m) p.1 hnds.1,
        lookupA_setKV_self]
    | succ j' =>
      have hj' : j' < rest.length := by simpa using hj
      have : ((p :: rest).get ⟨j' + 1, hj⟩ : String × String) = rest.get ⟨j', hj'⟩ := rfl
      rw [this, List.foldl_cons]
      exact ih (setKV p.1 p.2 m) hnds.2 j' hj'

/-- The per-index content of the capture map built by the decrement loop
(for distinct dependency slot symbols). -/
theorem buildCapMap_get (ps : List (String × String)) (hnd : (ps.map Prod.fst).Nodup) :
    ∀ j (hj : j < ps.length),
      lookupA (ps.get ⟨j, hj⟩).1 (buildCapMap ps) = some (ps.get ⟨j, hj⟩).2 :=
  foldl_setKV_get ps [] hnd

theorem decrLoop_spec (cv av : String) (oi : Nat) :
    ∀ (pairs : List (Nat × String × String)) (st : St),
      (∀ p ∈ pairs, (st.slots[p.1]?).isSome) →
      (pairs.map (fun p => p.1)).Nodup →
      ∃ stF, decrLoop cv av oi st pairs = .ok stF
        ∧ stF.heap = st.heap ++ decrActsOf cv av oi pairs
        ∧ stF.lines = st.lines ∧ stF.roots = st.roots ∧ stF.imports = st.imports
        ∧ stF.actsReg = st.actsReg ∧ stF.bnds = st.bnds ∧ stF.insts = st.insts
        ∧ stF.uidMap = st.uidMap ∧ stF.name = st.name ∧ stF.bound = st.bound
        ∧ (∀ s, s ∉ pairs.map (fun p => p.1) → stF.slots[s]? = st.slots[s]?)
        ∧ (∀ j (hj : j < pairs.length), ∀ sl,
            st.slots[(pairs.get ⟨j, hj⟩).1]? = some sl →
            stF.slots[(pairs.get ⟨j, hj⟩).1]?
              = some { sl with queued := sl.queued ++ [st.heap.length + j] }) := by
  intro pairs
  induction pairs with
  | nil =>
    intro st _ _
    refine ⟨st, rfl, by simp [decrActsOf], rfl, rfl, rfl, rfl, rfl, rfl, rfl, rfl, rfl,
      fun s _ => rfl, ?_⟩
    intro j hj
    exact absurd hj (by simp)
  | cons p rest ih =>
    rcases p with ⟨sid, sym, cap⟩
    intro st hval hnd
    rcases Option.isSome_iff_exists.mp (hval (sid, sym, cap) (by simp)) with ⟨sl0, hsl0⟩
    have hlt0 : sid < st.slots.length := (List.getElem?_eq_some.mp hsl0).1
    rw [List.map_cons] at hnd
    have hnds := List.nodup_cons.mp hnd
    have hval' : ∀ p ∈ rest,
        ((st.slots.set sid { sl0 with queued := sl0.queued ++ [st.heap.length] })[p.1]?).isSome := by
      intro p hp
      have hmemm : p.1 ∈ rest.map (fun q => q.1) := List.mem_map_of_mem _ hp
      have hne : sid ≠ p.1 := fun he => hnds.1 (he.symm ▸ hmemm)
      rw [List.getElem?_set_ne hne]
      exact hval p (by simp [hp])
    rcases ih { st with
        heap := st.heap ++
          [({ wait := [.slotDep sid],
              body := [.emit [.lit (cap ++ (" = ") ++ sym ++ (";"))],
                       .emit [.lit (("if (!--") ++ cv ++ (") ") ++ av ++ ("();"))]],
              instId := oi } : Act)],
        slots := st.slots.set sid { sl0 with queued := sl0.queued ++ [st.heap.length] } }
      hval' hnds.2 with
      ⟨stF, hok, hheap, hlines, hroots, himp, hreg, hbnds, hinsts, humap, hname, hbound,
        huntouched, hqueue⟩
    refine ⟨stF, ?_, ?_, hlines, hroots, himp, hreg, hbnds, hinsts, humap, hname, hbound,
      ?_, ?_⟩
    · simp only [decrLoop, hsl0]
      exact hok
    · rw [hheap]
      simp [decrActsOf]
    · intro s hs
      simp only [List.map_cons, List.mem_cons] at hs
      push_neg at hs
      rw [huntouched s hs.2]
      exact List.getElem?_set_ne (fun he => hs.1 he.symm)
    · intro j hj sl hsl
      cases j with
      | zero =>
        have hp0 : (((sid, sym, cap) :: rest).get ⟨0, hj⟩) = (sid, sym, cap) := rfl
        rw [hp0] at hsl ⊢
        have hsleq : sl = sl0 := by
          rw [hsl0] at hsl
          exact (Option.some.inj hsl).symm
        subst hsleq
        rw [huntouched sid hnds.1]
        rw [List.getElem?_set_eq_of_lt _ hlt0]
        simp
      | succ j' =>
        have hj' : j' < rest.length := by simpa using hj
        have hp : (((sid, sym, cap) :: rest).get ⟨j' + 1, hj⟩) = rest.get ⟨j', hj'⟩ := rfl
        rw [hp] at hsl ⊢
        have hmem : (rest.get ⟨j', hj'⟩).1 ∈ rest.map (fun p => p.1) :=
          List.mem_map_of_mem _ (rest.get_mem _ _)
        have hne : sid ≠ (rest.get ⟨j', hj'⟩).1 := fun he => hnds.1 (he.symm ▸ hmem)
        have hsl' : (st.slots.set sid
            { sl0 with queued := sl0.queued ++ [st.heap.length] })[(rest.get ⟨j', hj'⟩).1]?
            = some sl := by
          rw [List.getElem?_set_ne hne]
          exact hsl
        have := hqueue j' hj' sl hsl'
        have hlen : (st.heap ++
            [({ wait := [.slotDep sid],
                body := [.emit [.lit (cap ++ (" = ") ++ sym ++ (";"))],
                         .emit [.lit (("if (!--") ++ cv ++ (") ") ++ av ++ ("();"))]],
                instId := oi } : Act)]).length = st.heap.length + 1 := by
          simp
        rw [hlen] at this
        have harith : st.heap.length + 1 + j' = st.heap.length + (j' + 1) := by omega
        rw [harith] at this
        exact this

/-- C1: for a registered action with `N >= 2` resolved non-constant
dependencies, `resolve_acts` synthesizes a join: one `uid`-fresh counter
symbol declared initialized to `N` on a root-level `var` line together
with one `uid`-fresh capture symbol per dependency (the captures are
exactly the `uid` outputs for the dependency slot symbols, hence pairwise
distinct); a zero-dependency actor Action appended to the root list whose
body emits the function header, then the original action's emission under
an environment carrying the capture map (which maps each dependency slot
symbol to its capture symbol, per `buildCapMap_get`), then the closing
brace; and, for each of the `N` dependencies in order, a helper Action
queued on that dependency's slot whose emission copies the slot symbol
into its capture and decrements the counter, invoking the actor exactly
on reaching zero (`decrActsOf`). -/
theorem C1_join_synthesis
    (st : St) (aid : Nat) (act : Act) (needs : List Nat) (st' : St)
    (cv av : String) (st1 st2 : St) (ps : List (String × String)) (st3 : St)
    (hheap : st.heap[aid]? = some act)
    (hneeds : resolveNeeds st act.wait = .ok (needs, st'))
    (hlen : 2 ≤ needs.length)
    (hcv : uid st' ("counter") = (cv, st1))
    (hav : uid st1 ("actor") = (av, st2))
    (hcap : capGen st2 needs = .ok (ps, st3))
    (hnd : (needs.map (slotSymD st')).Nodup) :
    ∃ stF, resolveAct aid st = .ok stF
      ∧ stF.lines = st'.lines ++
          [("var ") ++ cv ++ (" = ") ++ natToDec needs.length ++ (", ")
            ++ String.intercalate (", ") (ps.map (fun p => p.2)) ++ (";")]
      ∧ stF.roots = st'.roots ++ [st'.heap.length]
      ∧ stF.actsReg = st'.actsReg
      ∧ stF.heap = st'.heap ++
          (({ wait := [],
              body := [.emit [.lit (("function ") ++ av ++ ("() \x7b"))],
                       .runWithCaptures aid (buildCapMap ps),
                       .emit [.lit ("\x7d")]],
              instId := act.instId } : Act)
            :: decrActsOf cv av act.instId (needs.zip ps))
      ∧ cv = uidSym ("counter") (uidCount st' ("counter") + 1)
      ∧ ps.map (fun p => p.1) = needs.map (slotSymD st')
      ∧ ps.map (fun p => p.2) = (uidSeq st2 (needs.map (slotSymD st'))).1
      ∧ (ps.map (fun p => p.2)).Pairwise (fun a c => a ≠ c)
      ∧ (∀ j (hj : j < needs.length), ∀ sl, st'.slots[needs.get ⟨j, hj⟩]? = some sl →
          stF.slots[needs.get ⟨j, hj⟩]?
            = some { sl with queued := sl.queued ++ [st'.heap.length + 1 + j] })
      ∧ (∀ s, s ∉ needs → stF.slots[s]? = st'.slots[s]?)
      ∧ (∀ j (hj : j < ps.length),
          lookupA (ps.get ⟨j, hj⟩).1 (buildCapMap ps) = some (ps.get ⟨j, hj⟩).2)
      ∧ (∀ f caps pre st0,
          evalStmt f caps pre (.runWithCaptures aid (buildCapMap ps)) st0
            = evalActBody f (some (buildCapMap ps)) ("  ") aid st0) := by
  have est1 : st1 = (uid st' ("counter")).2 := (congrArg Prod.snd hcv).symm
  subst est1
  have est2 : st2 = (uid (uid st' ("counter")).2 ("actor")).2 := (congrArg Prod.snd hav).symm
  subst est2
  have ecv : cv = (uid st' ("counter")).1 := (congrArg Prod.fst hcv).symm
  have eav : av = (uid (uid st' ("counter")).2 ("actor")).1 := (congrArg Prod.fst hav).symm
  have hvalid2 : ∀ s ∈ needs,
      (((uid (uid st' ("counter")).2 ("actor")).2).slots[s]?).isSome :=
    capGen_ok_valid needs _ ps st3 hcap
  rcases capGen_spec needs _ hvalid2 with ⟨ps', u, hok', hmap1, hmap2⟩
  have hpair := (hcap.symm.trans hok')
  simp only [Except.ok.injEq, Prod.mk.injEq] at hpair
  have eps : ps = ps' := hpair.1
  subst eps
  have est3 := hpair.2.symm
  subst est3
  have hsym : slotSymD ((uid (uid st' ("counter")).2 ("actor")).2) = slotSymD st' := rfl
  rw [hsym] at hmap1 hmap2
  have hndneeds : needs.Nodup := List.Nodup.of_map _ hnd
  have hlenps : ps.length = needs.length := by
    have := congrArg List.length hmap1
    simpa using this
  have hzlen : (needs.zip ps).length = needs.length := by
    rw [List.length_zip, hlenps, Nat.min_self]
  have hzfst : (needs.zip ps).map (fun p => p.1) = needs :=
    List.map_fst_zip needs ps (by omega)
  obtain ⟨n1, n2, t2, hneq⟩ : ∃ n1 n2 t2, needs = n1 :: n2 :: t2 := by
    cases needs with
    | nil => simp at hlen
    | cons a t =>
      cases t with
      | nil => simp at hlen
      | cons b t2 => exact ⟨a, b, t2, rfl⟩
  have hresolve : resolveAct aid st = joinSynth st' aid act needs := by
    simp only [resolveAct, hheap, hneeds, hneq]
  have hjoin : joinSynth st' aid act needs
      = decrLoop (uid st' ("counter")).1 (uid (uid st' ("counter")).2 ("actor")).1
          act.instId
          { (uid (uid st' ("counter")).2 ("actor")).2 with
            uidMap := u,
            lines := st'.lines ++
              [("var ") ++ (uid st' ("counter")).1 ++ (" = ") ++ natToDec needs.length
                ++ (", ") ++ String.intercalate (", ") (ps.map (fun p => p.2)) ++ (";")],
            heap := st'.heap ++
              [({ wait := [],
                  body := [.emit [.lit (("function ")
                             ++ (uid (uid st' ("counter")).2 ("actor")).1 ++ ("() \x7b"))],
                           .runWithCaptures aid (buildCapMap ps),
                           .emit [.lit ("\x7d")]],
                  instId := act.instId } : Act)],
            roots := st'.roots ++ [st'.heap.length] }
          (needs.zip ps) := by
    simp only [joinSynth]
    rw [hcv]
    rw [hav]
    rw [hcap]
    rfl
  have hval4 : ∀ p ∈ needs.zip ps,
      (({ (uid (uid st' ("counter")).2 ("actor")).2 with
          uidMap := u,
          lines := st'.lines ++
            [("var ") ++ (uid st' ("counter")).1 ++ (" = ") ++ natToDec needs.length
              ++ (", ") ++ String.intercalate (", ") (ps.map (fun p => p.2)) ++ (";")],
          heap := st'.heap ++
            [({ wait := [],
                body := [.emit [.lit (("function ")
                           ++ (uid (uid st' ("counter")).2 ("actor")).1 ++ ("() \x7b"))],
                         .runWithCaptures aid (buildCapMap ps),
                         .emit [.lit ("\x7d")]],
                instId := act.instId } : Act)],
          roots := st'.roots ++ [st'.heap.length] } : St).slots[p.1]?).isSome := by
    intro p hp
    exact hvalid2 p.1 (List.of_mem_zip hp).1
  have hnd4 : ((needs.zip ps).map (fun p => p.1)).Nodup := by
    rw [hzfst]
    exact hndneeds
  rcases decrLoop_spec (uid st' ("counter")).1 (uid (uid st' ("counter")).2 ("actor")).1
      act.instId (needs.zip ps) _ hval4 hnd4 with
    ⟨stF, hokF, hheapF, hlinesF, hrootsF, himpF, hregF, hbndsF, hinstsF, humapF, hnameF,
      hboundF, huntF, hqF⟩
  refine ⟨stF, ?_, ?_, ?_, ?_, ?_, ?_, hmap1, hmap2, ?_, ?_, ?_, ?_, fun f caps pre st0 => rfl⟩
  · rw [hresolve, hjoin]
    exact hokF
  · rw [hlinesF, ecv]
  · exact hrootsF
  · exact hregF
  · rw [hheapF, ecv, eav]
    simp [List.append_assoc]
  · rw [ecv, uid_fst]
  · rw [hmap2]
    exact uidSeq_pairwise _ _
  · intro j hj sl hsl
    have hjz : j < (needs.zip ps).length := by omega
    have hfst : ((needs.zip ps).get ⟨j, hjz⟩).1 = needs.get ⟨j, hj⟩ := by
      simp [List.get_eq_getElem, List.getElem_zip]
    have := hqF j hjz sl (by rw [hfst]; exact hsl)
    rw [hfst] at this
    have hl4 : (st'.heap ++
        [({ wait := [],
            body := [.emit [.lit (("function ")
                       ++ (uid (uid st' ("counter")).2 ("actor")).1 ++ ("() \x7b"))],
                     .runWithCaptures aid (buildCapMap ps),
                     .emit [.lit ("\x7d")]],
            instId := act.instId } : Act)]).length = st'.heap.length + 1 := by
      simp
    rw [show ({ (uid (uid st' ("counter")).2 ("actor")).2 with
          uidMap := u,
          lines := st'.lines ++
            [("var ") ++ (uid st' ("counter")).1 ++ (" = ") ++ natToDec needs.length
              ++ (", ") ++ String.intercalate (", ") (ps.map (fun p => p.2)) ++ (";")],
          heap := st'.heap ++
            [({ wait := [],
                body := [.emit [.lit (("function ")
                           ++ (uid (uid st' ("counter")).2 ("actor")).1 ++ ("() \x7b"))],
                         .runWithCaptures aid (buildCapMap ps),
                         .emit [.lit ("\x7d")]],
                instId := act.instId } : Act)],
          roots := st'.roots ++ [st'.heap.length] } : St).heap.length
        = st'.heap.length + 1 from hl4] at this
    have harith : st'.heap.length + 1 + j = st'.heap.length + 1 + j := rfl
    exact this
  · intro s hs
    have : s ∉ (needs.zip ps).map (fun p => p.1) := by
      rw [hzfst]
      exact hs
    exact huntF s this
  · intro j hj
    apply buildCapMap_get
    have : ps.map Prod.fst = needs.map (slotSymD st') := hmap1
    rw [this]
    exact hnd

/-- C1 witness: the two-dependency action of the hand-built state yields
the counter line `var counter_1 = 2, x_1, y_1;`, the actor root (heap id
1), and decrement helpers 2 and 3 queued on slots 0 and 1. -/
theorem C1_join_synthesis_witness :
    ∃ stF, resolveAct 0 demoJoinSt = .ok stF
      ∧ stF.lines = [("var counter_1 = 2, x_1, y_1;")]
      ∧ stF.roots = [1]
      ∧ stF.slots[0]? = some ({ type := ("text"), sym := ("x"), field := ("o1"), instId := 0, queued := [2] } : Slot)
      ∧ stF.slots[1]? = some ({ type := ("text"), sym := ("y"), field := ("o2"), instId := 0, queued := [3] } : Slot) := by
  obtain ⟨stF, hok, hlines, hroots, hreg, hheapF, hcvF, hm1, hm2, hpw, hq, hunt, hcapm,
      hrun⟩ :=
    C1_join_synthesis demoJoinSt 0
      ({ wait := [.slotDep 0, .slotDep 1], body := [], instId := 0 } : Act)
      [0, 1] demoJoinSt ("counter_1") ("actor_1")
      ({ demoJoinSt with uidMap := [(("counter"), 1)] })
      ({ demoJoinSt with uidMap := [(("counter"), 1), (("actor"), 1)] })
      [(("x"), ("x_1")), (("y"), ("y_1"))]
      ({ demoJoinSt with uidMap := [(("counter"), 1), (("actor"), 1), (("x"), 1), (("y"), 1)] })
      rfl rfl (by decide) rfl rfl rfl (by decide)
  refine ⟨stF, hok, hlines.trans (by rfl), hroots.trans (by rfl), ?_, ?_⟩
  · have := hq 0 (by decide)
      ({ type := ("text"), sym := ("x"), field := ("o1"), instId := 0, queued := [] } : Slot)
      (by rfl)
    exact this.trans (by rfl)
  · have := hq 1 (by decide)
      ({ type := ("text"), sym := ("y"), field := ("o2"), instId := 0, queued := [] } : Slot)
      (by rfl)
    exact this.trans (by rfl)

/-! ### Emission-protocol claims -/

/-- C7: `emit_triggered` rejects anything that is not a slot with the
invalid-slot diagnostic (every real `ValueSlot` is once-mode, so the
subsequent `mode` check never fires); on a slot it runs exactly the
queued actions, in queue order (sequential composition over `++`), each
entered one indentation level deeper (`pre ++ ind`). -/
theorem C7_emit_triggered
    (f : Nat) (caps : Option (List (String × String))) (pre ind : String) (st : St) :
    (∀ t v, evalStmt f caps pre (.emitTriggered (.literal t v) ind) st = .error .notSlot)
  ∧ (∀ iid, evalStmt f caps pre (.emitTriggered (.inst iid) ind) st = .error .notSlot)
  ∧ (∀ sid sl, st.slots[sid]? = some sl →
      evalStmt f caps pre (.emitTriggered (.slot sid) ind) st
        = seqRun (fun aid s => evalActBody f none (pre ++ ind) aid s) sl.queued st)
  ∧ (∀ (q1 q2 : List Nat) (st0 : St),
      seqRun (fun aid s => evalActBody f none (pre ++ ind) aid s) (q1 ++ q2) st0
        = match seqRun (fun aid s => evalActBody f none (pre ++ ind) aid s) q1 st0 with
          | .ok st1 => seqRun (fun aid s => evalActBody f none (pre ++ ind) aid s) q2 st1
          | .error e => .error e) := by
  refine ⟨fun t v => rfl, fun iid => rfl, ?_, fun q1 q2 st0 => seqRun_append _ q1 q2 st0⟩
  intro sid sl h
  simp only [evalStmt, stepStmt, h]

/-- C7 witness: triggering the demo slot runs its queue at the deeper
prefix; triggering a literal fails. -/
theorem C7_emit_triggered_witness :
    evalStmt 3 none ("") (.emitTriggered (.slot 0) ("  ")) demoRootSt
      = seqRun (fun aid s => evalActBody 3 none (("") ++ ("  ")) aid s) [2] demoRootSt
    ∧ evalStmt 3 none ("") (.emitTriggered (.literal ("text") (.str ("v"))) ("  ")) demoRootSt
      = .error .notSlot := by
  have h := C7_emit_triggered 3 none ("") ("  ") demoRootSt
  exact ⟨(h.2.2.1 0 demoSlot0 rfl).trans (by rfl), h.1 ("text") (.str ("v"))⟩

/-- C9: triggering from a capture-carrying environment is identical to
triggering from one without it (the nested `EmitContext`s are built with
no capture map), so a queued action's `string()` of a slot-resolved
binding renders the original symbol; only a `string()` call made directly
under the capture-carrying environment renders the capture symbol. -/
theorem C9_trigger_drops_captures
    (f : Nat) (m : List (String × String)) (pre : String) :
    (∀ target ind st,
      evalStmt f (some m) pre (.emitTriggered target ind) st
        = evalStmt f none pre (.emitTriggered target ind) st)
  ∧ (∀ st bid sid sl st', bndResolve st bid = .ok (.slot sid, st') →
      st'.slots[sid]? = some sl →
      renderFrag none (.str bid) st = .ok (sl.sym, st'))
  ∧ (∀ st bid sid sl st' cap, bndResolve st bid = .ok (.slot sid, st') →
      st'.slots[sid]? = some sl → lookupA sl.sym m = some cap →
      renderFrag (some m) (.str bid) st = .ok (cap, st')) := by
  refine ⟨?_, ?_, ?_⟩
  · intro target ind st
    cases target <;> rfl
  · intro st bid sid sl st' h hsl
    simp only [renderFrag, h, hsl]
  · intro st bid sid sl st' cap h hsl hcap
    simp only [renderFrag, h, hsl, hcap]

/-- C9 witness: the same slot-resolved binding renders `out_1` with no
capture map and `cap_1` under a map carrying `out_1 ↦ cap_1`, while
triggering under that map equals triggering without it. -/
theorem C9_trigger_drops_captures_witness :
    renderFrag none (.str 0) demoMemoSt = .ok (("out_1"), demoMemoSt1)
    ∧ renderFrag (some [(("out_1"), ("cap_1"))]) (.str 0) demoMemoSt
        = .ok (("cap_1"), demoMemoSt1)
    ∧ evalStmt 2 (some [(("out_1"), ("cap_1"))]) ("") (.emitTriggered (.slot 0) (""))
        demoMemoSt
      = evalStmt 2 none ("") (.emitTriggered (.slot 0) ("")) demoMemoSt := by
  have h := C9_trigger_drops_captures 2 [(("out_1"), ("cap_1"))] ("")
  refine ⟨?_, ?_, h.1 (.slot 0) ("") demoMemoSt⟩
  · exact h.2.1 demoMemoSt 0 0 _ demoMemoSt1 (by rfl) (by rfl)
  · exact h.2.2 demoMemoSt 0 0 _ demoMemoSt1 ("cap_1") (by rfl) (by rfl) (by rfl)

/-! ### Scheduling claims -/

/-- C4: an action with no non-constant dependencies is appended to the
root list (preserving registration order); one with exactly one
non-constant dependency is appended to that slot's queue; `emit_code`
emits the roots unconditionally, in `roots` order, at top level (prefix
`''`, no capture map, after the imports and the blank line), and root
iteration is sequential composition over `++`. -/
theorem C4_classification
    (st : St) (aid : Nat) (act : Act) (needs : List Nat) (st' : St)
    (hheap : st.heap[aid]? = some act)
    (hneeds : resolveNeeds st act.wait = .ok (needs, st')) :
    (needs = [] → resolveAct aid st = .ok { st' with roots := st'.roots ++ [aid] })
  ∧ (∀ sid sl, needs = [sid] → st'.slots[sid]? = some sl →
      resolveAct aid st
        = .ok { st' with slots := st'.slots.set sid { sl with queued := sl.queued ++ [aid] } })
  ∧ (∀ f stE, emit_code f stE
      = seqRun (fun a s => evalActBody f none ("") a s) stE.roots
          { stE with lines := stE.lines ++ importLines stE ++ [("")] })
  ∧ (∀ f (l1 l2 : List Nat) stE,
      seqRun (fun a s => evalActBody f none ("") a s) (l1 ++ l2) stE
        = match seqRun (fun a s => evalActBody f none ("") a s) l1 stE with
          | .ok st1 => seqRun (fun a s => evalActBody f none ("") a s) l2 st1
          | .error e => .error e) := by
  refine ⟨?_, ?_, fun f stE => rfl, fun f l1 l2 stE => seqRun_append _ l1 l2 stE⟩
  · intro hnil
    subst hnil
    simp only [resolveAct, hheap, hneeds]
  · intro sid sl hone hsl
    subst hone
    simp only [resolveAct, hheap, hneeds, hsl]

/-- C4 witness: on the demo state, the constant-only action 0 becomes a
root and the single-dependency action 1 is queued on its slot. -/
theorem C4_classification_witness :
    resolveAct 0 demoRootSt = .ok { demoRootSt1 with roots := demoRootSt1.roots ++ [0] }
    ∧ resolveAct 1 demoRootSt
      = .ok { demoRootSt with slots := demoRootSt.slots.set 0 { demoSlot0 with queued := demoSlot0.queued ++ [1] } } := by
  have h0 := C4_classification demoRootSt 0 _ [] demoRootSt1 rfl (by rfl)
  have h1 := C4_classification demoRootSt 1 _ [0] demoRootSt rfl (by rfl)
  exact ⟨h0.1 rfl, h1.2.1 0 demoSlot0 rfl rfl⟩

/-! ### Output-layout machinery (for the generated-code surface claim) -/

theorem setKV_fresh (k : String) (v : α) :
    ∀ m : List (String × α), lookupA k m = none → setKV k v m = m ++ [(k, v)] := by
  intro m
  induction m with
  | nil => intro _; rfl
  | cons p rest ih =>
    intro h
    simp only [lookupA] at h
    by_cases hp : p.1 = k
    · rw [if_pos hp] at h
      exact absurd h (by simp)
    · rw [if_neg hp] at h
      simp only [setKV, if_neg hp, ih h, List.cons_append]

theorem lookupA_none_not_mem (k : String) :
    ∀ m : List (String × α), lookupA k m = none → k ∉ m.map Prod.fst := by
  intro m
  induction m with
  | nil => intro _; simp
  | cons p rest ih =>
    intro h
    simp only [lookupA] at h
    by_cases hp : p.1 = k
    · rw [if_pos hp] at h
      exact absurd h (by simp)
    · rw [if_neg hp] at h
      simp only [List.map_cons, List.mem_cons]
      push_neg
      exact ⟨fun he => hp he.symm, ih h⟩

theorem var_counter_pre (x : String) :
    ("var ") ++ (("counter") ++ x) = ("var counter") ++ x := by
  rw [← String.append_assoc]
  rfl

theorem var_counter_line (k : Nat) (x : String) :
    ∃ suffix, (("var ") ++ uidSym ("counter") k) ++ x = ("var counter") ++ suffix := by
  refine ⟨("_") ++ (natToDec k ++ x), ?_⟩
  simp only [uidSym, String.append_assoc]
  rw [var_counter_pre]

/-- A successful `bind_to` only appends to the binding heap. -/
theorem bind_to_shape (st : St) (n t : String) (iid : Nat) (d : Option JVal)
    (bid : Nat) (st' : St) (h : bind_to st n t iid d = .ok (bid, st')) :
    ∃ bnds', st' = { st with bnds := bnds' } := by
  cases hm : mkBindingTo st iid n d with
  | error e => simp [bind_to, hm] at h
  | ok src =>
    simp only [bind_to, hm, Except.ok.injEq, Prod.mk.injEq] at h
    exact ⟨_, h.2.symm⟩

theorem output_lines (st : St) (iid : Nat) (n t : String) :
    (output st iid n t).2.lines = st.lines ∧ (output st iid n t).2.imports = st.imports := by
  constructor
  · simp only [output]
    split <;> rfl
  · simp only [output]
    split <;> rfl

theorem slotDecl_lines (st : St) (iid : Nat) (n t : String) :
    (slotDecl st iid n t).2.lines = st.lines ∧ (slotDecl st iid n t).2.imports = st.imports :=
  ⟨rfl, rfl⟩

/-- The construction invariant: empty line buffer, duplicate-free import
keys. -/
def ctorInv (st : St) : Prop :=
  st.lines = [] ∧ (st.imports.map Prod.fst).Nodup

theorem instImports_inv (st : St) (iid : Nat) (n sym : String) (st' : St)
    (h : instImports st iid n = .ok (sym, st')) (hp : ctorInv st) : ctorInv st' := by
  cases hl : lookupA n st.imports with
  | some s =>
    simp only [instImports, hl, Except.ok.injEq, Prod.mk.injEq] at h
    rw [← h.2]
    exact hp
  | none =>
    cases hlib : libs n with
    | none => simp [instImports, hl, hlib] at h
    | some p =>
      simp only [instImports, hl, hlib, Except.ok.injEq, Prod.mk.injEq] at h
      rw [← h.2]
      refine ⟨hp.1, ?_⟩
      have hfresh : lookupA n (uid st n).2.imports = none := hl
      rw [setKV_fresh n _ _ hfresh]
      have hk : n ∉ st.imports.map Prod.fst := lookupA_none_not_mem n st.imports hl
      simp only [List.map_append, List.map_cons, List.map_nil]
      rw [List.nodup_append]
      exact ⟨hp.2, List.nodup_singleton n, by simpa using hk⟩

theorem bind_to_inv (st : St) (n t : String) (iid : Nat) (d : Option JVal)
    (bid : Nat) (st' : St) (h : bind_to st n t iid d = .ok (bid, st')) (hp : ctorInv st) :
    ctorInv st' := by
  rcases bind_to_shape st n t iid d bid st' h with ⟨bnds', hb⟩
  subst hb
  exact hp

theorem output_inv (st : St) (iid : Nat) (n t : String) (hp : ctorInv st) :
    ctorInv (output st iid n t).2 := by
  rcases output_lines st iid n t with ⟨h1, h2⟩
  exact ⟨h1.trans hp.1, h2 ▸ hp.2⟩

theorem slotDecl_inv (st : St) (iid : Nat) (n t : String) (hp : ctorInv st) :
    ctorInv (slotDecl st iid n t).2 :=
  ⟨hp.1, hp.2⟩

theorem action_inv (st : St) (iid : Nat) (w : List WaitDep) (b : List EStmt)
    (hp : ctorInv st) : ctorInv (action st iid w b) :=
  ⟨hp.1, hp.2⟩

theorem uid_inv (st : St) (n : String) (hp : ctorInv st) : ctorInv (uid st n).2 :=
  ⟨hp.1, hp.2⟩

theorem ReadText_inv (st : St) (iid : Nat) (st' : St) (h : ReadText st iid = .ok st')
    (hp : ctorInv st) : ctorInv st' := by
  cases hi : instImports st iid ("fs") with
  | error e => simp [ReadText, hi] at h
  | ok p =>
    rcases p with ⟨fsSym, st1⟩
    simp only [ReadText, hi] at h
    cases hb : bind_to st1 ("filename") ("text") iid none with
    | error e => simp only [hb] at h; exact absurd h (by simp)
    | ok q =>
      rcases q with ⟨filename, st2⟩
      simp only [hb] at h
      simp only [Except.ok.injEq] at h
      rw [← h]
      exact action_inv _ _ _ _ (output_inv _ _ _ _
        (bind_to_inv st1 _ _ _ _ _ _ hb (instImports_inv st iid _ _ _ hi hp)))

theorem WriteText_inv (st : St) (iid : Nat) (st' : St) (h : WriteText st iid = .ok st')
    (hp : ctorInv st) : ctorInv st' := by
  cases hi : instImports st iid ("fs") with
  | error e => simp [WriteText, hi] at h
  | ok p =>
    rcases p with ⟨fsSym, st1⟩
    simp only [WriteText, hi] at h
    cases hb : bind_to st1 ("filename") ("text") iid none with
    | error e => simp only [hb] at h; exact absurd h (by simp)
    | ok q =>
      rcases q with ⟨filename, st2⟩
      simp only [hb] at h
      cases hb2 : bind_to st2 ("in") ("text") iid none with
      | error e => simp only [hb2] at h; exact absurd h (by simp)
      | ok q2 =>
        rcases q2 with ⟨data, st3⟩
        simp only [hb2] at h
        simp only [Except.ok.injEq] at h
        rw [← h]
        exact action_inv _ _ _ _ (bind_to_inv st2 _ _ _ _ _ _ hb2
          (bind_to_inv st1 _ _ _ _ _ _ hb (instImports_inv st iid _ _ _ hi hp)))

theorem ConcatText_inv (st : St) (iid : Nat) (st' : St) (h : ConcatText st iid = .ok st')
    (hp : ctorInv st) : ctorInv st' := by
  cases hb : bind_to st ("left") ("text") iid none with
  | error e => simp [ConcatText, hb] at h
  | ok q =>
    rcases q with ⟨left, st1⟩
    simp only [ConcatText, hb] at h
    cases hb2 : bind_to st1 ("right") ("text") iid none with
    | error e => simp only [hb2] at h; exact absurd h (by simp)
    | ok q2 =>
      rcases q2 with ⟨right, st2⟩
      simp only [hb2] at h
      simp only [Except.ok.injEq] at h
      rw [← h]
      exact action_inv _ _ _ _ (output_inv _ _ _ _
        (bind_to_inv st1 _ _ _ _ _ _ hb2 (bind_to_inv st _ _ _ _ _ _ hb hp)))

theorem LogText_inv (st : St) (iid : Nat) (st' : St) (h : LogText st iid = .ok st')
    (hp : ctorInv st) : ctorInv st' := by
  cases hb : bind_to st ("in") ("text") iid none with
  | error e => simp [LogText, hb] at h
  | ok q =>
    rcases q with ⟨data, st1⟩
    simp only [LogText, hb] at h
    simp only [Except.ok.injEq] at h
    rw [← h]
    exact action_inv _ _ _ _ (bind_to_inv st _ _ _ _ _ _ hb hp)

theorem ParseJSON_inv (st : St) (iid : Nat) (st' : St) (h : ParseJSON st iid = .ok st')
    (hp : ctorInv st) : ctorInv st' := by
  cases hb : bind_to st ("in") ("text") iid none with
  | error e => simp [ParseJSON, hb] at h
  | ok q =>
    rcases q with ⟨inp, st1⟩
    simp only [ParseJSON, hb] at h
    simp only [Except.ok.injEq] at h
    rw [← h]
    exact action_inv _ _ _ _ (output_inv _ _ _ _ (bind_to_inv st _ _ _ _ _ _ hb hp))

theorem EncodeJSON_inv (st : St) (iid : Nat) (st' : St) (h : EncodeJSON st iid = .ok st')
    (hp : ctorInv st) : ctorInv st' := by
  cases hb : bind_to st ("in") ("json") iid none with
  | error e => simp [EncodeJSON, hb] at h
  | ok q =>
    rcases q with ⟨inp, st1⟩
    simp only [EncodeJSON, hb] at h
    simp only [Except.ok.injEq] at h
    rw [← h]
    exact action_inv _ _ _ _ (output_inv _ _ _ _ (bind_to_inv st _ _ _ _ _ _ hb hp))

theorem LoadImage_inv (st : St) (iid : Nat) (st' : St) (h : LoadImage st iid = .ok st')
    (hp : ctorInv st) : ctorInv st' := by
  cases hb : bind_to st ("src") ("text") iid none with
  | error e => simp [LoadImage, hb] at h
  | ok q =>
    rcases q with ⟨src, st1⟩
    simp only [LoadImage, hb] at h
    simp only [Except.ok.injEq] at h
    rw [← h]
    exact action_inv _ _ _ _ (output_inv _ _ _ _ (output_inv _ _ _ _ (output_inv _ _ _ _
      (bind_to_inv st _ _ _ _ _ _ hb hp))))

theorem WebGLCanvas_inv (st : St) (iid : Nat) (st' : St) (h : WebGLCanvas st iid = .ok st')
    (hp : ctorInv st) : ctorInv st' := by
  cases h1 : bind_to st ("alpha") ("boolean") iid (some (.bool false)) with
  | error e => simp [WebGLCanvas, h1] at h
  | ok q1 =>
    rcases q1 with ⟨alpha, s1⟩
    simp only [WebGLCanvas, h1] at h
    cases h2 : bind_to s1 ("depth") ("boolean") iid (some (.bool false)) with
    | error e => simp only [h2] at h; exact absurd h (by simp)
    | ok q2 =>
      rcases q2 with ⟨depth, s2⟩
      simp only [h2] at h
      cases h3 : bind_to s2 ("stencil") ("boolean") iid (some (.bool false)) with
      | error e => simp only [h3] at h; exact absurd h (by simp)
      | ok q3 =>
        rcases q3 with ⟨stencil, s3⟩
        simp only [h3] at h
        cases h4 : bind_to s3 ("antialias") ("boolean") iid (some (.bool false)) with
        | error e => simp only [h4] at h; exact absurd h (by simp)
        | ok q4 =>
          rcases q4 with ⟨antialias, s4⟩
          simp only [h4] at h
          cases h5 : bind_to s4 ("preserveDrawingBuffer") ("boolean") iid
              (some (.bool false)) with
          | error e => simp only [h5] at h; exact absurd h (by simp)
          | ok q5 =>
            rcases q5 with ⟨pdb, s5⟩
            simp only [h5] at h
            simp only [Except.ok.injEq] at h
            rw [← h]
            exact action_inv _ _ _ _ (uid_inv _ _ (uid_inv _ _ (slotDecl_inv _ _ _ _
              (output_inv _ _ _ _ (output_inv _ _ _ _ (output_inv _ _ _ _
                (output_inv _ _ _ _ (output_inv _ _ _ _
                  (bind_to_inv s4 _ _ _ _ _ _ h5 (bind_to_inv s3 _ _ _ _ _ _ h4
                    (bind_to_inv s2 _ _ _ _ _ _ h3 (bind_to_inv s1 _ _ _ _ _ _ h2
                      (bind_to_inv st _ _ _ _ _ _ h1 hp)))))))))))))

theorem components_inv (kind : String) (defn : St → Nat → Except Err St)
    (hc : components kind = some defn) :
    ∀ st iid st', defn st iid = .ok st' → ctorInv st → ctorInv st' := by
  unfold components at hc
  split at hc
  · injection hc with hh; subst hh; exact fun st iid st' h hp => ReadText_inv st iid st' h hp
  · injection hc with hh; subst hh; exact fun st iid st' h hp => WriteText_inv st iid st' h hp
  · injection hc with hh; subst hh; exact fun st iid st' h hp => LogText_inv st iid st' h hp
  · injection hc with hh; subst hh; exact fun st iid st' h hp => ParseJSON_inv st iid st' h hp
  · injection hc with hh; subst hh; exact fun st iid st' h hp => EncodeJSON_inv st iid st' h hp
  · injection hc with hh; subst hh; exact fun st iid st' h hp => ConcatText_inv st iid st' h hp
  · injection hc with hh; subst hh; exact fun st iid st' h hp => LoadImage_inv st iid st' h hp
  · injection hc with hh; subst hh; exact fun st iid st' h hp => WebGLCanvas_inv st iid st' h hp
  · exact absurd hc (by simp)

theorem generate1_inv (u : UseSite) (st st' : St) (h : generate1 u st = .ok st')
    (hp : ctorInv st) : ctorInv st' := by
  cases hc : components u.is with
  | none => simp [generate1, hc] at h
  | some defn =>
    simp only [generate1, hc] at h
    cases hl : lookupA u.id ({ st with insts := st.insts ++
        [({ fields := [], args := u.args, whereStr := u.is ++ (":") ++ u.id } : Inst)] } : St).bound with
    | some x => rw [hl] at h; simp at h
    | none =>
      rw [hl] at h
      exact components_inv u.is defn hc _ _ _ h ⟨hp.1, hp.2⟩

theorem seqRun_inv (P : St → Prop) (step : α → St → Except Err St)
    (hstep : ∀ x s s', step x s = .ok s' → P s → P s') :
    ∀ (l : List α) (st st' : St), seqRun step l st = .ok st' → P st → P st' := by
  intro l
  induction l with
  | nil =>
    intro st st' h hp
    simp only [seqRun, Except.ok.injEq] at h
    rw [← h]
    exact hp
  | cons x rest ih =>
    intro st st' h hp
    simp only [seqRun] at h
    cases hx : step x st with
    | error e => rw [hx] at h; simp at h
    | ok s1 => rw [hx] at h; exact ih s1 st' h (hstep x st s1 hx hp)

/-! ### Shapes of the scheduling pass -/

theorem depResolve_shape (st : St) (d : WaitDep) (r : Res) (st' : St)
    (h : depResolve st d = .ok (r, st')) : ∃ bnds', st' = { st with bnds := bnds' } := by
  cases d with
  | bnd bid => exact bndResolve_shape st bid r st' h
  | slotDep sid =>
    simp only [depResolve, Except.ok.injEq, Prod.mk.injEq] at h
    exact ⟨st.bnds, by rw [← h.2]⟩

theorem resolveNeeds_shape : ∀ (w : List WaitDep) (st : St) (needs : List Nat) (st' : St),
    resolveNeeds st w = .ok (needs, st') → ∃ bnds', st' = { st with bnds := bnds' } := by
  intro w
  induction w with
  | nil =>
    intro st needs st' h
    simp only [resolveNeeds, Except.ok.injEq, Prod.mk.injEq] at h
    exact ⟨st.bnds, by rw [← h.2]⟩
  | cons d rest ih =>
    intro st needs st' h
    simp only [resolveNeeds] at h
    cases hd : depResolve st d with
    | error e => rw [hd] at h; simp at h
    | ok p =>
      rcases p with ⟨r, s1⟩
      simp only [hd] at h
      rcases depResolve_shape st d r s1 hd with ⟨b1, hb1⟩
      cases r with
      | literal t v =>
        rcases ih s1 needs st' h with ⟨b2, hb2⟩
        exact ⟨b2, by rw [hb2, hb1]⟩
      | slot sid =>
        cases hr : resolveNeeds s1 rest with
        | error e => simp only [hr] at h; exact absurd h (by simp)
        | ok p2 =>
          rcases p2 with ⟨ns, s2⟩
          simp only [hr] at h
          simp only [Except.ok.injEq, Prod.mk.injEq] at h
          rcases ih s1 ns s2 hr with ⟨b2, hb2⟩
          exact ⟨b2, by rw [← h.2, hb2, hb1]⟩
      | inst iid => simp at h

theorem capGen_shape : ∀ (needs : List Nat) (st : St) (ps : List (String × String)) (st3 : St),
    capGen st needs = .ok (ps, st3) → ∃ u, st3 = { st with uidMap := u } := by
  intro needs
  induction needs with
  | nil =>
    intro st ps st3 h
    simp only [capGen, Except.ok.injEq, Prod.mk.injEq] at h
    exact ⟨st.uidMap, by rw [← h.2]⟩
  | cons sid rest ih =>
    intro st ps st3 h
    cases hsl : st.slots[sid]? with
    | none => simp [capGen, hsl] at h
    | some sl =>
      simp only [capGen, hsl] at h
      cases hr : capGen (uid st sl.sym).2 rest with
      | error e => rw [hr] at h; simp at h
      | ok p =>
        rcases p with ⟨ps', st3'⟩
        rw [hr] at h
        simp only [Except.ok.injEq, Prod.mk.injEq] at h
        rcases ih (uid st sl.sym).2 ps' st3' hr with ⟨u, hu⟩
        exact ⟨u, by rw [← h.2, hu]; rfl⟩

theorem decrLoop_fields (cv av : String) (oi : Nat) :
    ∀ (pairs : List (Nat × String × String)) (st stF : St),
      decrLoop cv av oi st pairs = .ok stF →
      stF.lines = st.lines ∧ stF.imports = st.imports := by
  intro pairs
  induction pairs with
  | nil =>
    intro st stF h
    simp only [decrLoop, Except.ok.injEq] at h
    rw [← h]
    exact ⟨rfl, rfl⟩
  | cons p rest ih =>
    rcases p with ⟨sid, sym, cap⟩
    intro st stF h
    simp only [decrLoop] at h
    cases hsl : st.slots[sid]? with
    | none => simp only [hsl] at h; exact absurd h (by simp)
    | some sl =>
      simp only [hsl] at h
      have hres := ih _ stF h
      exact ⟨hres.1, hres.2⟩

theorem joinSynth_layout (st : St) (aid : Nat) (act : Act) (needs : List Nat) (st' : St)
    (h : joinSynth st aid act needs = .ok st') :
    st'.imports = st.imports
    ∧ ∃ l, st'.lines = st.lines ++ [l] ∧ ∃ suf, l = ("var counter") ++ suf := by
  rcases hu1 : uid st ("counter") with ⟨cv, st1⟩
  rcases hu2 : uid st1 ("actor") with ⟨av, st2⟩
  cases hc : capGen st2 needs with
  | error e => simp [joinSynth, hu1, hu2, hc] at h
  | ok p =>
    rcases p with ⟨ps, st3⟩
    simp only [joinSynth, hu1, hu2, hc] at h
    rcases capGen_shape needs st2 ps st3 hc with ⟨u, hu⟩
    rcases decrLoop_fields cv av act.instId (needs.zip ps) _ st' h with ⟨hl, hi⟩
    have ecv : cv = uidSym ("counter") (uidCount st ("counter") + 1) :=
      ((congrArg Prod.fst hu1).symm).trans (uid_fst st ("counter"))
    have e2 : st2 = (uid st1 ("actor")).2 := (congrArg Prod.snd hu2).symm
    have e1 : st1 = (uid st ("counter")).2 := (congrArg Prod.snd hu1).symm
    refine ⟨?_, ?_⟩
    · rw [hi, hu, e2, e1]; rfl
    · obtain ⟨suf, hsuf⟩ := var_counter_line (uidCount st ("counter") + 1)
        ((" = ") ++ (natToDec needs.length ++ ((", ")
          ++ (String.intercalate (", ") (ps.map (fun p => p.2)) ++ (";")))))
      refine ⟨("var counter") ++ suf, ?_, suf, rfl⟩
      rw [hl, hu, e2, e1, ← hsuf, ecv]
      simp only [String.append_assoc, uidSym]
      rfl

theorem resolveAct_layout (aid : Nat) (st st' : St) (h : resolveAct aid st = .ok st') :
    st'.imports = st.imports
    ∧ ∃ decls, st'.lines = st.lines ++ decls
        ∧ ∀ l ∈ decls, ∃ suf, l = ("var counter") ++ suf := by
  cases hh : st.heap[aid]? with
  | none => simp [resolveAct, hh] at h
  | some act =>
    simp only [resolveAct, hh] at h
    cases hn : resolveNeeds st act.wait with
    | error e => simp only [hn] at h; exact absurd h (by simp)
    | ok p =>
      rcases p with ⟨needs, s1⟩
      simp only [hn] at h
      rcases resolveNeeds_shape act.wait st needs s1 hn with ⟨b1, hb1⟩
      cases needs with
      | nil =>
        simp only [Except.ok.injEq] at h
        refine ⟨?_, [], ?_, by simp⟩
        · rw [← h, hb1]
        · rw [← h, hb1]
          exact (List.append_nil _).symm
      | cons n1 t =>
        cases t with
        | nil =>
          cases hsl : s1.slots[n1]? with
          | none => simp only [hsl] at h; exact absurd h (by simp)
          | some sl =>
            simp only [hsl] at h
            simp only [Except.ok.injEq] at h
            refine ⟨?_, [], ?_, by simp⟩
            · rw [← h, hb1]
            · rw [← h, hb1]
              exact (List.append_nil _).symm
        | cons n2 t2 =>
          rcases joinSynth_layout s1 aid act (n1 :: n2 :: t2) st' h with ⟨hi, l, hl, suf, hsuf⟩
          refine ⟨by rw [hi, hb1], [l], by rw [hl, hb1], ?_⟩
          intro l' hl'
          rcases List.mem_singleton.mp hl' with hh2
          rw [hh2]
          exact ⟨suf, hsuf⟩

theorem seqRun_layout (step : α → St → Except Err St)
    (hstep : ∀ x s s', step x s = .ok s' →
      s'.imports = s.imports ∧ ∃ decls, s'.lines = s.lines ++ decls
        ∧ ∀ l ∈ decls, ∃ suf, l = ("var counter") ++ suf) :
    ∀ (l : List α) (st st' : St), seqRun step l st = .ok st' →
      st'.imports = st.imports ∧ ∃ decls, st'.lines = st.lines ++ decls
        ∧ ∀ l' ∈ decls, ∃ suf, l' = ("var counter") ++ suf := by
  intro l
  induction l with
  | nil =>
    intro st st' h
    simp only [seqRun, Except.ok.injEq] at h
    rw [← h]
    exact ⟨rfl, [], by simp, by simp⟩
  | cons x rest ih =>
    intro st st' h
    simp only [seqRun] at h
    cases hx : step x st with
    | error e => rw [hx] at h; simp at h
    | ok s1 =>
      rw [hx] at h
      rcases hstep x st s1 hx with ⟨hi1, d1, hl1, hp1⟩
      rcases ih s1 st' h with ⟨hi2, d2, hl2, hp2⟩
      refine ⟨hi2.trans hi1, d1 ++ d2, ?_, ?_⟩
      · rw [hl2, hl1, List.append_assoc]
      · intro l' hl'
        rcases List.mem_append.mp hl' with hm | hm
        · exact hp1 l' hm
        · exact hp2 l' hm

/-! ### Emission only appends lines -/

theorem renderFrag_shape (caps : Option (List (String × String))) (fr : Frag) (st : St)
    (s : String) (st' : St) (h : renderFrag caps fr st = .ok (s, st')) :
    ∃ bnds', st' = { st with bnds := bnds' } := by
  cases fr with
  | lit t =>
    simp only [renderFrag, Except.ok.injEq, Prod.mk.injEq] at h
    exact ⟨st.bnds, by rw [← h.2]⟩
  | str bid =>
    simp only [renderFrag] at h
    cases hb : bndResolve st bid with
    | error e => simp only [hb] at h; exact absurd h (by simp)
    | ok p =>
      rcases p with ⟨r, s1⟩
      simp only [hb] at h
      rcases bndResolve_shape st bid r s1 hb with ⟨b1, hb1⟩
      cases r with
      | literal t v =>
        simp only [Except.ok.injEq, Prod.mk.injEq] at h
        exact ⟨b1, by rw [← h.2, hb1]⟩
      | slot sid =>
        cases hsl : s1.slots[sid]? with
        | none => simp only [hsl] at h; exact absurd h (by simp)
        | some sl =>
          simp only [hsl] at h
          cases caps with
          | none =>
            simp only [Except.ok.injEq, Prod.mk.injEq] at h
            exact ⟨b1, by rw [← h.2, hb1]⟩
          | some m =>
            cases hlk : lookupA sl.sym m with
            | none =>
              simp only [hlk] at h
              simp only [Except.ok.injEq, Prod.mk.injEq] at h
              exact ⟨b1, by rw [← h.2, hb1]⟩
            | some cap =>
              simp only [hlk] at h
              simp only [Except.ok.injEq, Prod.mk.injEq] at h
              exact ⟨b1, by rw [← h.2, hb1]⟩
      | inst iid => simp at h
  | boolOf bid =>
    simp only [renderFrag] at h
    cases hb : bndResolve st bid with
    | error e => simp only [hb] at h; exact absurd h (by simp)
    | ok p =>
      rcases p with ⟨r, s1⟩
      simp only [hb] at h
      rcases bndResolve_shape st bid r s1 hb with ⟨b1, hb1⟩
      cases r with
      | literal t v =>
        by_cases ht : t = ("boolean")
        · simp only [if_pos ht, Except.ok.injEq, Prod.mk.injEq] at h
          exact ⟨b1, by rw [← h.2, hb1]⟩
        · simp only [if_neg ht] at h
          exact absurd h (by simp)
      | slot sid =>
        cases hsl : s1.slots[sid]? with
        | none => simp only [hsl] at h; exact absurd h (by simp)
        | some sl =>
          simp only [hsl] at h
          by_cases ht : sl.type = ("boolean")
          · simp only [if_pos ht, Except.ok.injEq, Prod.mk.injEq] at h
            exact ⟨b1, by rw [← h.2, hb1]⟩
          · simp only [if_neg ht] at h
            exact absurd h (by simp)
      | inst iid => simp at h

theorem renderFrags_shape (caps : Option (List (String × String))) :
    ∀ (frags : List Frag) (st : St) (s : String) (st' : St),
      renderFrags caps frags st = .ok (s, st') → ∃ bnds', st' = { st with bnds := bnds' } := by
  intro frags
  induction frags with
  | nil =>
    intro st s st' h
    simp only [renderFrags, Except.ok.injEq, Prod.mk.injEq] at h
    exact ⟨st.bnds, by rw [← h.2]⟩
  | cons fr rest ih =>
    intro st s st' h
    simp only [renderFrags] at h
    cases h1 : renderFrag caps fr st with
    | error e => simp only [h1] at h; exact absurd h (by simp)
    | ok p =>
      rcases p with ⟨s1, t1⟩
      simp only [h1] at h
      cases h2 : renderFrags caps rest t1 with
      | error e => simp only [h2] at h; exact absurd h (by simp)
      | ok p2 =>
        rcases p2 with ⟨s2, t2⟩
        simp only [h2] at h
        simp only [Except.ok.injEq, Prod.mk.injEq] at h
        rcases renderFrag_shape caps fr st s1 t1 h1 with ⟨b1, hb1⟩
        rcases ih t1 s2 t2 h2 with ⟨b2, hb2⟩
        exact ⟨b2, by rw [← h.2, hb2, hb1]⟩

theorem seqRun_mono (step : α → St → Except Err St)
    (hstep : ∀ x s s', step x s = .ok s' → ∃ t, s'.lines = s.lines ++ t) :
    ∀ (l : List α) (st st' : St), seqRun step l st = .ok st' →
      ∃ t, st'.lines = st.lines ++ t := by
  intro l
  induction l with
  | nil =>
    intro st st' h
    simp only [seqRun, Except.ok.injEq] at h
    exact ⟨[], by rw [← h]; simp⟩
  | cons x rest ih =>
    intro st st' h
    simp only [seqRun] at h
    cases hx : step x st with
    | error e => rw [hx] at h; simp at h
    | ok s1 =>
      rw [hx] at h
      rcases hstep x st s1 hx with ⟨t1, ht1⟩
      rcases ih s1 st' h with ⟨t2, ht2⟩
      exact ⟨t1 ++ t2, by rw [ht2, ht1, List.append_assoc]⟩

theorem evalActBody_mono : ∀ (f : Nat) (caps : Option (List (String × String)))
    (pre : String) (aid : Nat) (st st' : St),
    evalActBody f caps pre aid st = .ok st' → ∃ t, st'.lines = st.lines ++ t := by
  intro f
  induction f with
  | zero =>
    intro caps pre aid st st' h
    simp [evalActBody] at h
  | succ f ih =>
    intro caps pre aid st st' h
    simp only [evalActBody] at h
    cases hh : st.heap[aid]? with
    | none => rw [hh] at h; simp at h
    | some a =>
      rw [hh] at h
      refine seqRun_mono _ ?_ a.body st st' h
      intro stmt s s' hs
      cases stmt with
      | emit frags =>
        simp only [stepStmt] at hs
        cases hr : renderFrags caps frags s with
        | error e => simp only [hr] at hs; exact absurd hs (by simp)
        | ok p =>
          rcases p with ⟨txt, s1⟩
          simp only [hr] at hs
          simp only [Except.ok.injEq] at hs
          rcases renderFrags_shape caps frags s txt s1 hr with ⟨b1, hb1⟩
          refine ⟨[pre ++ txt], ?_⟩
          rw [← hs, hb1]
      | emitTriggered target ind =>
        simp only [stepStmt] at hs
        cases target with
        | literal t v => simp at hs
        | inst iid => simp at hs
        | slot sid =>
          cases hsl : s.slots[sid]? with
          | none => simp only [hsl] at hs; exact absurd hs (by simp)
          | some sl =>
            simp only [hsl] at hs
            exact seqRun_mono _ (fun aid2 u u' hu => ih none (pre ++ ind) aid2 u u' hu)
              sl.queued s s' hs
      | runWithCaptures aid2 m =>
        simp only [stepStmt] at hs
        exact ih (some m) ("  ") aid2 s s' hs

theorem emit_code_layout (fuel : Nat) (st stC : St) (h : emit_code fuel st = .ok stC) :
    ∃ tail, stC.lines = st.lines ++ importLines st ++ [("")] ++ tail := by
  rcases seqRun_mono _ (fun aid s s' hs => evalActBody_mono fuel none ("") aid s s' hs)
      st.roots _ stC h with ⟨t, ht⟩
  refine ⟨t, ?_⟩
  rw [ht]

/-- C2 (counterexample to the stated layout): on the two-producer join
graph the very first generated line is the synthesized join counter
declaration pushed by `resolve_acts`, and the deduplicated library
require declaration only comes second — the output does not begin
with the imports. -/
theorem C2_output_layout_counterexample :
    generate 20 astJoin = .ok ([("var counter_1 = 2, out_1_1, out_2_1;"),
      ("var fs_1 = require(\"fs\");"),
      (""),
      ("fs_1.readFile(\"a\", \x27utf8\x27, function (err, out_1) \x7b"),
      ("  if (err) throw err;"),
      ("  out_1_1 = out_1;"),
      ("  if (!--counter_1) actor_1();"),
      ("\x7d);"),
      ("fs_1.readFile(\"b\", \x27utf8\x27, function (err, out_2) \x7b"),
      ("  if (err) throw err;"),
      ("  out_2_1 = out_2;"),
      ("  if (!--counter_1) actor_1();"),
      ("\x7d);"),
      ("function actor_1() \x7b"),
      ("  const out_3 = out_1_1 + out_2_1;"),
      ("\x7d")])
    ∧ ("var counter_1 = 2, out_1_1, out_2_1;")
      = ("var counter") ++ ("_1 = 2, out_1_1, out_2_1;") :=
  ⟨rfl, rfl⟩

/-- C2 (amended): for every compiled graph the generated output is an
ordered line sequence consisting of the synthesized join counter/capture
declarations pushed during `resolve_acts` FIRST, then the deduplicated
library import declarations (one per distinct library name, first-use order),
then a blank separator line, then the emissions of the root actions in
registration order. -/
theorem C2_output_layout (fuel : Nat) (ast : List UseSite) (lines : List String)
    (h : generate fuel ast = .ok lines) :
    ∃ (decls : List String) (ims : List (String × String)) (tail : List String),
      lines = decls ++ ims.map (fun p : String × String => ("var ") ++ p.2 ++ (" = require(\"") ++ ((libs p.1).getD ("undefined")) ++ ("\");")) ++ [("")] ++ tail
      ∧ (∀ l ∈ decls, ∃ suf, l = ("var counter") ++ suf)
      ∧ (ims.map Prod.fst).Nodup := by
  cases h1 : seqRun generate1 ast initSt with
  | error e => simp [generate, h1] at h
  | ok st1 =>
    simp only [generate, h1] at h
    cases h2 : resolve_acts st1 with
    | error e => simp only [h2] at h; exact absurd h (by simp)
    | ok st2 =>
      simp only [h2] at h
      cases h3 : emit_code fuel st2 with
      | error e => simp only [h3] at h; exact absurd h (by simp)
      | ok st3 =>
        simp only [h3, Except.ok.injEq] at h
        have hctor : ctorInv st1 := seqRun_inv ctorInv generate1 (fun u s s2 hs hp => generate1_inv u s s2 hs hp) ast initSt st1 h1 ⟨rfl, List.nodup_nil⟩
        rcases seqRun_layout resolveAct (fun aid s s2 hs => resolveAct_layout aid s s2 hs) st1.actsReg st1 st2 h2 with ⟨himp, decls, hdl, hdp⟩
        rcases emit_code_layout fuel st2 st3 h3 with ⟨tail, ht⟩
        refine ⟨decls, st2.imports, tail, ?_, hdp, ?_⟩
        · rw [← h, ht, hdl, hctor.1]
          simp only [List.nil_append]
          rfl
        · rw [himp]
          exact hctor.2

theorem C2_output_layout_witness :
    ∃ (decls : List String) (ims : List (String × String)) (tail : List String),
      ([("var counter_1 = 2, out_1_1, out_2_1;"),
      ("var fs_1 = require(\"fs\");"),
      (""),
      ("fs_1.readFile(\"a\", \x27utf8\x27, function (err, out_1) \x7b"),
      ("  if (err) throw err;"),
      ("  out_1_1 = out_1;"),
      ("  if (!--counter_1) actor_1();"),
      ("\x7d);"),
      ("fs_1.readFile(\"b\", \x27utf8\x27, function (err, out_2) \x7b"),
      ("  if (err) throw err;"),
      ("  out_2_1 = out_2;"),
      ("  if (!--counter_1) actor_1();"),
      ("\x7d);"),
      ("function actor_1() \x7b"),
      ("  const out_3 = out_1_1 + out_2_1;"),
      ("\x7d")] : List String) = decls ++ ims.map (fun p : String × String => ("var ") ++ p.2 ++ (" = require(\"") ++ ((libs p.1).getD ("undefined")) ++ ("\");")) ++ [("")] ++ tail
      ∧ (∀ l ∈ decls, ∃ suf, l = ("var counter") ++ suf)
      ∧ (ims.map Prod.fst).Nodup :=
  C2_output_layout 20 astJoin ([("var counter_1 = 2, out_1_1, out_2_1;"),
      ("var fs_1 = require(\"fs\");"),
      (""),
      ("fs_1.readFile(\"a\", \x27utf8\x27, function (err, out_1) \x7b"),
      ("  if (err) throw err;"),
      ("  out_1_1 = out_1;"),
      ("  if (!--counter_1) actor_1();"),
      ("\x7d);"),
      ("fs_1.readFile(\"b\", \x27utf8\x27, function (err, out_2) \x7b"),
      ("  if (err) throw err;"),
      ("  out_2_1 = out_2;"),
      ("  if (!--counter_1) actor_1();"),
      ("\x7d);"),
      ("function actor_1() \x7b"),
      ("  const out_3 = out_1_1 + out_2_1;"),
      ("\x7d")]) (by rfl)

end Hadron
